import Mathlib

/-!
Shallow embedding of the RoamNote offline-aware trip/place data
synchronization layer and its collaborators, translated from
`src/app/shared/services/{trips,notification,network,diary}.service.ts`,
`trips-storage.service.ts`, `diary-storage.service.ts` and the model files.

Modelling conventions:
- JavaScript `Date` values are `DateTime` records: a signed day index plus
  milliseconds within the day.  `setDate(getDate() - 1)` becomes `day - 1`,
  `setHours(h, 0, 0, 0)` replaces the millisecond-of-day component.
- Capacitor `Preferences` is a flat key/value namespace with an explicit
  failure oracle per operation, since the services catch its failures.
- Stored JSON payloads are a tagged sum (`StoredValue`); an untagged or
  wrongly tagged payload models a `JSON.parse` failure.
- The Supabase backend is a record of tables; gateway calls are traced
  with explicit events so that "no call issued" is expressible.
-/

/-- Milliseconds per hour, as used by the notification date arithmetic. -/
def msPerHour : Int := 3600000

/-- A point in (local) time: a day index plus milliseconds within the day.
This models a JavaScript `Date` with calendar-day granularity made explicit. -/
structure DateTime where
  day : Int
  msOfDay : Int
deriving DecidableEq, Repr

/-- Total milliseconds of a `DateTime`, the JS epoch-millisecond view. -/
def DateTime.toMs (d : DateTime) : Int := d.day * (24 * msPerHour) + d.msOfDay

/-- Comparison `a <= b` on instants, as JS compares `Date` values. -/
def dtLe (a b : DateTime) : Prop := a.toMs ≤ b.toMs

/-- Comparison `a < b` on instants. -/
def dtLt (a b : DateTime) : Prop := a.toMs < b.toMs

instance (a b : DateTime) : Decidable (dtLe a b) := by
  unfold dtLe; infer_instance

instance (a b : DateTime) : Decidable (dtLt a b) := by
  unfold dtLt; infer_instance

/-- Trip entity (`trip.model.ts`): id, name, optional note and date bounds,
creation timestamp. -/
structure Trip where
  id : Nat
  name : String
  note : Option String
  start_date : Option DateTime
  end_date : Option DateTime
  created_at : Int
deriving DecidableEq, Repr

/-- Fields of a trip insert (`TripInsert`). -/
structure TripInsert where
  name : String
  note : Option String
  start_date : Option DateTime
  end_date : Option DateTime
deriving DecidableEq, Repr

/-- Partial update of a trip (`TripUpdate`): absent fields are unchanged. -/
structure TripUpdate where
  name : Option String
  note : Option (Option String)
  start_date : Option (Option DateTime)
  end_date : Option (Option DateTime)
deriving DecidableEq, Repr

/-- Place entity (`place.model.ts`).  Latitude/longitude are carried opaquely
(scaled integers); no claim computes with them. -/
structure PlaceRec where
  id : Nat
  name : String
  latitude : Int
  longitude : Int
deriving DecidableEq, Repr

/-- Fields of a place insert (`PlaceInsert`). -/
structure PlaceInsert where
  name : String
  latitude : Int
  longitude : Int
deriving DecidableEq, Repr

/-- Partial update of a place (`PlaceUpdate`). -/
structure PlaceUpdate where
  name : Option String
  latitude : Option Int
  longitude : Option Int
deriving DecidableEq, Repr

/-- TripPlace row (`trip-place.model.ts`, `TripPlace`). -/
structure TripPlaceRow where
  id : Nat
  trip_id : Nat
  place_id : Nat
  visit_order : Nat
  arrival_date : Option DateTime
  departure_date : Option DateTime
  is_alert_active : Bool
  note : Option String
deriving DecidableEq, Repr

/-- TripPlace joined with its place (`TripPlaceWithDetails`). -/
structure TripPlaceWithDetails where
  id : Nat
  trip_id : Nat
  place_id : Nat
  visit_order : Nat
  arrival_date : Option DateTime
  departure_date : Option DateTime
  is_alert_active : Bool
  note : Option String
  place_name : String
  place_latitude : Int
  place_longitude : Int
deriving DecidableEq, Repr

/-- Fields of a trip-place insert (`TripPlaceInsert`); `is_alert_active`
is optional and defaulted by the service. -/
structure TripPlaceInsert where
  trip_id : Nat
  place_id : Nat
  visit_order : Nat
  arrival_date : Option DateTime
  departure_date : Option DateTime
  is_alert_active : Option Bool
  note : Option String
deriving DecidableEq, Repr

/-- Partial update of a trip place (`TripPlaceUpdate`). -/
structure TripPlaceUpdate where
  visit_order : Option Nat
  arrival_date : Option (Option DateTime)
  departure_date : Option (Option DateTime)
  is_alert_active : Option Bool
  note : Option (Option String)
deriving DecidableEq, Repr

/-- A diary note (`diary-entry.model.ts`, `DiaryNote`): content plus soft
references to TripPlace ids. -/
structure DiaryNote where
  id : String
  content : String
  spotIds : List Nat
  createdAt : String
  updatedAt : String
deriving DecidableEq, Repr

/-- A diary entry (`DiaryEntry`): one calendar date with its notes. -/
structure DiaryEntry where
  id : String
  date : String
  title : Option String
  notes : List DiaryNote
  createdAt : String
  updatedAt : String
deriving DecidableEq, Repr

/-- A spot with trip information for display (`SpotWithTrip`). -/
structure SpotWithTrip where
  id : Nat
  name : String
  tripId : Nat
  tripName : String
  arrivalDate : Option DateTime
  departureDate : Option DateTime
  latitude : Int
  longitude : Int
deriving DecidableEq, Repr

/-- A resolved spot reference inside an enriched diary note
(the anonymous `spots` element type of `DiaryNoteWithDetails`). -/
structure SpotRef where
  id : Nat
  name : String
  tripName : String
  arrivalDate : Option DateTime
deriving DecidableEq, Repr

/-- A diary note with resolved spot details (`DiaryNoteWithDetails`). -/
structure DiaryNoteWithDetails where
  id : String
  content : String
  spotIds : List Nat
  createdAt : String
  updatedAt : String
  spots : List SpotRef
deriving DecidableEq, Repr

/-- A diary entry with enriched notes (`DiaryEntryWithDetails`). -/
structure DiaryEntryWithDetails where
  id : String
  date : String
  title : Option String
  notes : List DiaryNoteWithDetails
  createdAt : String
  updatedAt : String
deriving DecidableEq, Repr

/-! ## Capacitor Preferences and the local cache store (`trips-storage.service.ts`) -/

/-- Values held by the Preferences key/value store.  The services write
JSON-serialized lists; a `raw` value models arbitrary or corrupt content
whose parse into the expected shape fails. -/
inductive StoredValue where
  | trips : List Trip → StoredValue
  | tripPlaces : List TripPlaceWithDetails → StoredValue
  | diary : List DiaryEntry → StoredValue
  | raw : String → StoredValue
deriving DecidableEq, Repr

/-- The Preferences plugin: a key/value map plus per-operation failure
oracles (the platform calls are fallible and the services catch them). -/
structure Prefs where
  kv : List (String × StoredValue)
  getFails : String → Bool
  setFails : String → Bool
  removeFails : String → Bool

/-- Sets a key in the underlying map, overwriting any earlier binding. -/
def setKV (kv : List (String × StoredValue)) (k : String) (v : StoredValue) :
    List (String × StoredValue) :=
  if kv.any (fun e => e.1 == k) then
    kv.map (fun e => if e.1 == k then (k, v) else e)
  else
    kv ++ [(k, v)]

/-- Preferences.get: fails per the oracle, else returns the value if present. -/
def prefsGet (p : Prefs) (k : String) : Except Unit (Option StoredValue) :=
  if p.getFails k then .error ()
  else .ok ((p.kv.find? (fun e => e.1 == k)).map (fun e => e.2))

/-- Preferences.set: fails per the oracle, else overwrites the binding. -/
def prefsSet (p : Prefs) (k : String) (v : StoredValue) : Except Unit Prefs :=
  if p.setFails k then .error ()
  else .ok { p with kv := setKV p.kv k v }

/-- Preferences.remove: fails per the oracle, else drops the binding. -/
def prefsRemove (p : Prefs) (k : String) : Except Unit Prefs :=
  if p.removeFails k then .error ()
  else .ok { p with kv := p.kv.filter (fun e => e.1 != k) }

/-- Key `TRIPS_KEY = 'cached_trips'` of TripsStorageService. -/
def TRIPS_KEY : String := "cached_trips"

/-- Key `PLACES_KEY = 'cached_places'` of TripsStorageService. -/
def PLACES_KEY : String := "cached_places"

/-- Key prefix `TRIP_PLACES_KEY = 'cached_trip_places'` of TripsStorageService. -/
def TRIP_PLACES_KEY : String := "cached_trip_places"

/-- The per-trip cache key, built in `cacheTripPlaces` and
`getCachedTripPlaces` by appending the trip id to the prefix. -/
def tripPlacesKey (tripId : Nat) : String :=
  TRIP_PLACES_KEY ++ "_" ++ toString tripId

/-- TripsStorageService.cacheTrips: serializes and stores the trip list;
a platform failure is caught, logged and swallowed. -/
def cacheTrips (p : Prefs) (trips : List Trip) : Except Unit Unit × Prefs :=
  match prefsSet p TRIPS_KEY (.trips trips) with
  | .ok p1 => (.ok (), p1)
  | .error _ => (.ok (), p)

/-- TripsStorageService.getCachedTrips: returns the cached list, or the empty
list when the key is absent, the platform read fails, or the parse fails. -/
def getCachedTrips (p : Prefs) : List Trip :=
  match prefsGet p TRIPS_KEY with
  | .error _ => []
  | .ok none => []
  | .ok (some v) =>
    match v with
    | .trips l => l
    | _ => []

/-- TripsStorageService.cacheTripPlaces: stores one trip's place list under
its per-trip key; platform failures are swallowed. -/
def cacheTripPlaces (p : Prefs) (tripId : Nat)
    (tripPlaces : List TripPlaceWithDetails) : Except Unit Unit × Prefs :=
  match prefsSet p (tripPlacesKey tripId) (.tripPlaces tripPlaces) with
  | .ok p1 => (.ok (), p1)
  | .error _ => (.ok (), p)

/-- TripsStorageService.getCachedTripPlaces: returns the cached list for the
trip, or the empty list on absence, read failure, or parse failure. -/
def getCachedTripPlaces (p : Prefs) (tripId : Nat) : List TripPlaceWithDetails :=
  match prefsGet p (tripPlacesKey tripId) with
  | .error _ => []
  | .ok none => []
  | .ok (some v) =>
    match v with
    | .tripPlaces l => l
    | _ => []

/-- TripsStorageService.clearCache: removes the trip-list key and the unused
`PLACES_KEY`; a failure aborts the remaining removes and is swallowed. -/
def clearCache (p : Prefs) : Except Unit Unit × Prefs :=
  match prefsRemove p TRIPS_KEY with
  | .error _ => (.ok (), p)
  | .ok p1 =>
    match prefsRemove p1 PLACES_KEY with
    | .error _ => (.ok (), p1)
    | .ok p2 => (.ok (), p2)

/-! ## Network status monitor (`network.service.ts`) -/

/-- NetworkService state: the `BehaviorSubject` value (hard-coded `true` at
construction) and the `initialized` guard flag. -/
structure NetworkState where
  value : Bool
  initialized : Bool
deriving DecidableEq, Repr

/-- The state right after construction: subject value `true`, not initialized. -/
def initialNetworkState : NetworkState := { value := true, initialized := false }

/-- Events acting on the network monitor: the startup `initNetwork s` carries
the platform status read by `Network.getStatus()`; `statusChange s` is a
platform-pushed `networkStatusChange` event. -/
inductive NetEvent where
  | initNetwork (platform : Bool)
  | statusChange (connected : Bool)
deriving DecidableEq, Repr

/-- One step of the network monitor.  A second initialization call is a no-op
because of the `initialized` guard; a change event overwrites the value. -/
def applyNetEvent (st : NetworkState) : NetEvent → NetworkState
  | .initNetwork s =>
    if st.initialized then st else { value := s, initialized := true }
  | .statusChange s => { st with value := s }

/-- NetworkService.isOnline: the synchronous subject-value query. -/
def isOnline (st : NetworkState) : Bool := st.value

/-- The value the monitor should report after a trail of events, given the
value it reported before them: the last pushed status, if any. -/
def lastStatus (start : Bool) : List NetEvent → Bool
  | [] => start
  | .initNetwork _ :: evs => lastStatus start evs
  | .statusChange s :: evs => lastStatus s evs

/-! ## Diary enrichment (`diary.service.ts`) -/

/-- DiaryService.enrichEntryWithDetails: resolves each note's referenced
TripPlace ids against the current spots, silently dropping dangling ids. -/
def enrichEntryWithDetails (entry : DiaryEntry) (allSpots : List SpotWithTrip) :
    DiaryEntryWithDetails :=
  let notesWithDetails : List DiaryNoteWithDetails :=
    entry.notes.map (fun note =>
      let spots : List SpotRef :=
        (note.spotIds.map (fun spotId =>
          match allSpots.find? (fun s => s.id == spotId) with
          | none => none
          | some spot =>
            some { id := spot.id, name := spot.name,
                   tripName := spot.tripName, arrivalDate := spot.arrivalDate }
        )).filterMap id
      { id := note.id, content := note.content, spotIds := note.spotIds,
        createdAt := note.createdAt, updatedAt := note.updatedAt,
        spots := spots })
  { id := entry.id, date := entry.date, title := entry.title,
    notes := notesWithDetails, createdAt := entry.createdAt,
    updatedAt := entry.updatedAt }

/-! ## Notification scheduler (`notification.service.ts`) -/

/-- The compiled-in debug switch; `false` in the source as shipped. -/
def DEBUG_MODE : Bool := false

/-- Delay in hours used only by the (dead) debug branch; 24 in production. -/
def NOTIFICATION_DELAY_HOURS : Int := 24

/-- The fixed local hour (09:00) at which production reminders fire. -/
def NOTIFICATION_HOUR : Int := 9

/-- State of the notification subsystem: the permission flag, the platform's
pending notifications (id and trigger instant), and the service's internal
`notificationSchedules` map. -/
structure NotifState where
  hasPermission : Bool
  pending : List (Nat × DateTime)
  schedules : List (Nat × DateTime)
deriving DecidableEq, Repr

/-- LocalNotifications.schedule: scheduling under an id replaces any pending
notification with the same id. -/
def platformSchedule (pending : List (Nat × DateTime)) (id : Nat)
    (at_ : DateTime) : List (Nat × DateTime) :=
  pending.filter (fun e => e.1 != id) ++ [(id, at_)]

/-- NotificationService.calculateNotificationDate: in production, one
calendar day before the arrival date, at 09:00 local time.  The debug branch
(two minutes from now) is compiled out by `DEBUG_MODE = false`. -/
def calculateNotificationDate (now : DateTime) (arrival : DateTime) : DateTime :=
  if DEBUG_MODE then
    { day := now.day, msOfDay := now.msOfDay + NOTIFICATION_DELAY_HOURS * msPerHour }
  else
    { day := arrival.day - 1, msOfDay := NOTIFICATION_HOUR * msPerHour }

/-- NotificationService.scheduleNotificationForSpot: schedules a reminder for
a trip place when its alert flag is set, an arrival date exists, permission
is granted, and the computed trigger instant is strictly in the future. -/
def scheduleNotificationForSpot (now : DateTime) (st : NotifState)
    (tripPlace : TripPlaceWithDetails) : NotifState :=
  match tripPlace.arrival_date with
  | none => st
  | some arrival =>
    if !tripPlace.is_alert_active then st
    else if !st.hasPermission then st
    else
      let notificationDate := calculateNotificationDate now arrival
      if dtLe notificationDate now then st
      else
        { st with
          pending := platformSchedule st.pending tripPlace.id notificationDate,
          schedules :=
            st.schedules.filter (fun e => e.1 != tripPlace.id)
              ++ [(tripPlace.id, notificationDate)] }

/-- NotificationService.cancelNotification: cancels the platform notification
keyed by the trip place id and drops the internal schedule entry. -/
def cancelNotification (st : NotifState) (tripPlaceId : Nat) : NotifState :=
  { st with
    pending := st.pending.filter (fun e => e.1 != tripPlaceId),
    schedules := st.schedules.filter (fun e => e.1 != tripPlaceId) }

/-- NotificationService.updateNotification: cancel first, then reschedule when
the alert flag is still set and an arrival date exists. -/
def updateNotification (now : DateTime) (st : NotifState)
    (tripPlace : TripPlaceWithDetails) : NotifState :=
  let st1 := cancelNotification st tripPlace.id
  if tripPlace.is_alert_active ∧ tripPlace.arrival_date ≠ none then
    scheduleNotificationForSpot now st1 tripPlace
  else st1

/-- One step of the first `syncAllNotifications` loop: cancel a pending id
whose trip place is gone, alert-disabled, or dateless.  The accumulator also
records the cancelled ids. -/
def syncCancelStep (tripPlaces : List TripPlaceWithDetails)
    (acc : NotifState × List Nat) (pendingId : Nat) : NotifState × List Nat :=
  match tripPlaces.find? (fun tp => tp.id == pendingId) with
  | none => (cancelNotification acc.1 pendingId, acc.2 ++ [pendingId])
  | some tp =>
    if tp.is_alert_active = false ∨ tp.arrival_date = none then
      (cancelNotification acc.1 pendingId, acc.2 ++ [pendingId])
    else acc

/-- One step of the second `syncAllNotifications` loop: pass an active,
dated trip place to scheduling unless it was already pending at entry.
The accumulator records the ids passed to scheduling. -/
def syncScheduleStep (now : DateTime) (pendingIds : List Nat)
    (acc : NotifState × List Nat) (tp : TripPlaceWithDetails) :
    NotifState × List Nat :=
  if tp.is_alert_active = true ∧ tp.arrival_date ≠ none then
    if pendingIds.contains tp.id then acc
    else (scheduleNotificationForSpot now acc.1 tp, acc.2 ++ [tp.id])
  else acc

/-- NotificationService.syncAllNotifications: reads the pending ids once,
cancels stale ones, then schedules missing active ones.  Returns the final
state together with the cancelled ids and the ids passed to scheduling. -/
def syncAllNotifications (now : DateTime) (st : NotifState)
    (tripPlaces : List TripPlaceWithDetails) :
    NotifState × List Nat × List Nat :=
  let pendingIds := (st.pending.map (fun e => e.1)).dedup
  let c := pendingIds.foldl (syncCancelStep tripPlaces) (st, [])
  let s := tripPlaces.foldl (syncScheduleStep now pendingIds) (c.1, [])
  (s.1, c.2, s.2)

/-- NotificationService.cancelAllNotifications: cancels everything pending
and clears the internal schedule map (no-op when nothing is pending). -/
def cancelAllNotifications (st : NotifState) : NotifState :=
  if st.pending = [] then st
  else { st with pending := [], schedules := [] }

/-- Operations a client can invoke on the notification subsystem. -/
inductive NotifOp where
  | schedule (now : DateTime) (tp : TripPlaceWithDetails)
  | cancel (id : Nat)
  | update (now : DateTime) (tp : TripPlaceWithDetails)
  | sync (now : DateTime) (tps : List TripPlaceWithDetails)
  | cancelAll

/-- Applies one notification operation to the state. -/
def applyNotifOp (st : NotifState) : NotifOp → NotifState
  | .schedule now tp => scheduleNotificationForSpot now st tp
  | .cancel id => cancelNotification st id
  | .update now tp => updateNotification now st tp
  | .sync now tps => (syncAllNotifications now st tps).1
  | .cancelAll => cancelAllNotifications st

/-- The notification subsystem state at app start: nothing pending yet. -/
def initialNotifState (perm : Bool) : NotifState :=
  { hasPermission := perm, pending := [], schedules := [] }

/-- There is at most one pending reminder per TripPlace id. -/
def pendingKeysNodup (st : NotifState) : Prop :=
  (st.pending.map (fun e => e.1)).Nodup

/-! ## Trip synchronization service (`trips.service.ts`) -/

/-- The user-facing offline message (`ERROR_MESSAGES.OFFLINE`). -/
def OFFLINE_MESSAGE : String :=
  "Keine Internetverbindung. Diese Aktion ist nur online möglich."

/-- Failures surfaced by the service: the offline fast-fail and backend
(`RemoteError`) rejections. -/
inductive SvcError where
  | offline
  | remote
deriving DecidableEq, Repr

/-- Gateway (Supabase) calls, for tracing which requests an operation issues. -/
inductive GwCall where
  | selectTrips
  | selectTripPlaces (tripId : Nat)
  | selectTripPlaceById (id : Nat)
  | insertTrip
  | updateTrip (id : Nat)
  | deleteTrip (id : Nat)
  | insertPlace
  | updatePlace (id : Nat)
  | insertTripPlace
  | updateTripPlace (id : Nat)
  | deleteTripPlace (id : Nat)
  | updateVisitOrder (tripId : Nat) (id : Nat) (visitOrder : Nat)
deriving DecidableEq, Repr

/-- Events traced by the service: gateway calls and refresh triggers. -/
inductive Ev where
  | gw (c : GwCall)
  | refreshPlaces (tripId : Nat)
  | refreshTrips
deriving DecidableEq, Repr

/-- The remote relational backend: one table per entity plus an id counter
(for the database-assigned primary keys and creation timestamps). -/
structure Backend where
  trips : List Trip
  places : List PlaceRec
  tripPlaces : List TripPlaceRow
  nextId : Nat
deriving DecidableEq, Repr

/-- Trip get-all ordering: creation time descending. -/
def readTripsB (b : Backend) : List Trip :=
  b.trips.mergeSort (fun x y => decide (y.created_at ≤ x.created_at))

/-- The TripPlace rows belonging to one trip (the `eq('trip_id', …)` filter). -/
def rowsOfTrip (b : Backend) (tripId : Nat) : List TripPlaceRow :=
  b.tripPlaces.filter (fun r => r.trip_id == tripId)

/-- The `order('visit_order', ascending)` comparison. -/
def voLe (x y : TripPlaceRow) : Bool := decide (x.visit_order ≤ y.visit_order)

/-- The nested `Place(name, latitude, longitude)` join for one row; `none`
models the row's `Place` coming back null so the field access fails. -/
def joinRow (places : List PlaceRec) (r : TripPlaceRow) :
    Option TripPlaceWithDetails :=
  (places.find? (fun p => p.id == r.place_id)).map (fun p =>
    { id := r.id, trip_id := r.trip_id, place_id := r.place_id,
      visit_order := r.visit_order, arrival_date := r.arrival_date,
      departure_date := r.departure_date, is_alert_active := r.is_alert_active,
      note := r.note, place_name := p.name, place_latitude := p.latitude,
      place_longitude := p.longitude })

/-- Joins a whole response; any row with a missing place fails the mapping. -/
def joinRows (places : List PlaceRec) : List TripPlaceRow →
    Option (List TripPlaceWithDetails)
  | [] => some []
  | r :: rs =>
    match joinRow places r, joinRows places rs with
    | some d, some ds => some (d :: ds)
    | _, _ => none

/-- The TripPlace get-all-for-trip read: filter by trip, order by
`visit_order` ascending, join the place details. -/
def readTripPlacesB (b : Backend) (tripId : Nat) :
    Option (List TripPlaceWithDetails) :=
  joinRows b.places ((rowsOfTrip b tripId).mergeSort voLe)

/-- TripsService.getTripPlaceWithDetails: select one TripPlace by id with the
place join; `none` when the select or the join fails. -/
def getTripPlaceWithDetails (b : Backend) (tripPlaceId : Nat) :
    Option TripPlaceWithDetails :=
  (b.tripPlaces.find? (fun r => r.id == tripPlaceId)).bind (joinRow b.places)

/-- State of the trip synchronization service and its collaborators: online
flag, backend, the in-memory subjects, the typed view of the local cache,
and the notification subsystem. -/
structure SyncState where
  online : Bool
  backend : Backend
  tripsSubject : List Trip
  placeSubjects : List (Nat × List TripPlaceWithDetails)
  cachedTrips : List Trip
  cachedPlaces : List (Nat × List TripPlaceWithDetails)
  notif : NotifState
deriving DecidableEq, Repr

/-- Looks up the per-trip subject (or cache) association list. -/
def lookupAssoc (m : List (Nat × List TripPlaceWithDetails)) (t : Nat) :
    Option (List TripPlaceWithDetails) :=
  (m.find? (fun e => e.1 == t)).map (fun e => e.2)

/-- The cached list for a trip; an absent key reads as the empty cache. -/
def cacheAt (m : List (Nat × List TripPlaceWithDetails)) (t : Nat) :
    List TripPlaceWithDetails :=
  (lookupAssoc m t).getD []

/-- Emits a value on the per-trip subject if it exists (`if (subject)
subject.next(…)`); no subject, no effect. -/
def subjNext (m : List (Nat × List TripPlaceWithDetails)) (t : Nat)
    (v : List TripPlaceWithDetails) : List (Nat × List TripPlaceWithDetails) :=
  m.map (fun e => if e.1 == t then (t, v) else e)

/-- Overwrites (or creates) the cache entry for a trip. -/
def setAssoc (m : List (Nat × List TripPlaceWithDetails)) (t : Nat)
    (v : List TripPlaceWithDetails) : List (Nat × List TripPlaceWithDetails) :=
  if m.any (fun e => e.1 == t) then
    m.map (fun e => if e.1 == t then (t, v) else e)
  else m ++ [(t, v)]

/-- Result of one gateway request as seen by a subscriber. -/
inductive GwResult (α : Type) where
  | ok (data : α)
  | err
deriving DecidableEq, Repr

/-- TripsService.loadTrips: offline serves the cached snapshot without a
gateway call; online success caches and publishes the fresh data; online
failure falls back to the cache only when it is non-empty. -/
def loadTrips (st : SyncState) (gw : GwResult (List Trip)) :
    SyncState × List Ev :=
  if !st.online then
    ({ st with tripsSubject := st.cachedTrips }, [])
  else
    match gw with
    | .ok trips =>
      ({ st with cachedTrips := trips, tripsSubject := trips },
       [.gw .selectTrips])
    | .err =>
      if st.cachedTrips ≠ [] then
        ({ st with tripsSubject := st.cachedTrips }, [.gw .selectTrips])
      else (st, [.gw .selectTrips])

/-- TripsService.loadTripPlaces: the per-trip analogue of `loadTrips`; the
subject is only fed when it exists in the map. -/
def loadTripPlaces (st : SyncState) (tripId : Nat)
    (gw : GwResult (List TripPlaceWithDetails)) : SyncState × List Ev :=
  if !st.online then
    ({ st with placeSubjects :=
        subjNext st.placeSubjects tripId (cacheAt st.cachedPlaces tripId) }, [])
  else
    match gw with
    | .ok data =>
      ({ st with cachedPlaces := setAssoc st.cachedPlaces tripId data,
                 placeSubjects := subjNext st.placeSubjects tripId data },
       [.gw (.selectTripPlaces tripId)])
    | .err =>
      let cached := cacheAt st.cachedPlaces tripId
      if cached ≠ [] then
        ({ st with placeSubjects := subjNext st.placeSubjects tripId cached },
         [.gw (.selectTripPlaces tripId)])
      else (st, [.gw (.selectTripPlaces tripId)])

/-- TripsService.refreshTrips against the modelled backend (whose reads
succeed and return the current table contents). -/
def refreshTripsM (st : SyncState) : SyncState × List Ev :=
  loadTrips st (.ok (readTripsB st.backend))

/-- TripsService.refreshTripPlaces against the modelled backend; a failing
place join surfaces as a load error (and hence a cache fallback). -/
def refreshTripPlacesM (st : SyncState) (tripId : Nat) : SyncState × List Ev :=
  match readTripPlacesB st.backend tripId with
  | some data => loadTripPlaces st tripId (.ok data)
  | none => loadTripPlaces st tripId .err

/-- TripsService.checkOnlineOrError: fail fast with the offline error. -/
def checkOnlineOrError (st : SyncState) : Except SvcError Unit :=
  if !st.online then .error .offline else .ok ()

/-- Outcome of a write operation: its result, the post state, and the traced
events (gateway calls and refresh triggers, in order). -/
structure WriteOut (α : Type) where
  result : Except SvcError α
  state : SyncState
  events : List Ev

/-- Applies a partial trip update to a row. -/
def applyTripUpdate (t : Trip) (u : TripUpdate) : Trip :=
  { t with name := u.name.getD t.name, note := u.note.getD t.note,
           start_date := u.start_date.getD t.start_date,
           end_date := u.end_date.getD t.end_date }

/-- Applies a partial place update to a row. -/
def applyPlaceUpdate (p : PlaceRec) (u : PlaceUpdate) : PlaceRec :=
  { p with name := u.name.getD p.name, latitude := u.latitude.getD p.latitude,
           longitude := u.longitude.getD p.longitude }

/-- Applies a partial trip-place update to a row. -/
def applyTripPlaceUpdate (r : TripPlaceRow) (u : TripPlaceUpdate) : TripPlaceRow :=
  { r with visit_order := u.visit_order.getD r.visit_order,
           arrival_date := u.arrival_date.getD r.arrival_date,
           departure_date := u.departure_date.getD r.departure_date,
           is_alert_active := u.is_alert_active.getD r.is_alert_active,
           note := u.note.getD r.note }

/-- TripsService.createTrip: offline check, insert, then a trip refresh. -/
def createTrip (st : SyncState) (trip : TripInsert) : WriteOut Trip :=
  match checkOnlineOrError st with
  | .error e => { result := .error e, state := st, events := [] }
  | .ok _ =>
    let b := st.backend
    let newTrip : Trip :=
      { id := b.nextId, name := trip.name, note := trip.note,
        start_date := trip.start_date, end_date := trip.end_date,
        created_at := Int.ofNat b.nextId }
    let b1 := { b with trips := b.trips ++ [newTrip], nextId := b.nextId + 1 }
    let r := refreshTripsM { st with backend := b1 }
    { result := .ok newTrip, state := r.1,
      events := [.gw .insertTrip, .refreshTrips] ++ r.2 }

/-- TripsService.updateTrip: offline check, update-and-select-single (which
fails when the id matches no row), then a trip refresh. -/
def updateTrip (st : SyncState) (id : Nat) (u : TripUpdate) : WriteOut Trip :=
  match checkOnlineOrError st with
  | .error e => { result := .error e, state := st, events := [] }
  | .ok _ =>
    match st.backend.trips.find? (fun t => t.id == id) with
    | none =>
      { result := .error .remote, state := st, events := [.gw (.updateTrip id)] }
    | some t =>
      let t1 := applyTripUpdate t u
      let b1 := { st.backend with
        trips := st.backend.trips.map (fun x => if x.id == id then t1 else x) }
      let r := refreshTripsM { st with backend := b1 }
      { result := .ok t1, state := r.1,
        events := [.gw (.updateTrip id), .refreshTrips] ++ r.2 }

/-- TripsService.deleteTrip: offline check, delete, then a trip refresh. -/
def deleteTrip (st : SyncState) (id : Nat) : WriteOut Unit :=
  match checkOnlineOrError st with
  | .error e => { result := .error e, state := st, events := [] }
  | .ok _ =>
    let b1 := { st.backend with
      trips := st.backend.trips.filter (fun t => t.id != id) }
    let r := refreshTripsM { st with backend := b1 }
    { result := .ok (), state := r.1,
      events := [.gw (.deleteTrip id), .refreshTrips] ++ r.2 }

/-- TripsService.createPlace: offline check and insert; no refresh is
triggered by place creation. -/
def createPlace (st : SyncState) (place : PlaceInsert) : WriteOut PlaceRec :=
  match checkOnlineOrError st with
  | .error e => { result := .error e, state := st, events := [] }
  | .ok _ =>
    let b := st.backend
    let newPlace : PlaceRec :=
      { id := b.nextId, name := place.name, latitude := place.latitude,
        longitude := place.longitude }
    let b1 := { b with places := b.places ++ [newPlace], nextId := b.nextId + 1 }
    { result := .ok newPlace, state := { st with backend := b1 },
      events := [.gw .insertPlace] }

/-- TripsService.updatePlace: offline check and update-single; no refresh. -/
def updatePlace (st : SyncState) (id : Nat) (u : PlaceUpdate) :
    WriteOut PlaceRec :=
  match checkOnlineOrError st with
  | .error e => { result := .error e, state := st, events := [] }
  | .ok _ =>
    match st.backend.places.find? (fun p => p.id == id) with
    | none =>
      { result := .error .remote, state := st, events := [.gw (.updatePlace id)] }
    | some p =>
      let p1 := applyPlaceUpdate p u
      let b1 := { st.backend with
        places := st.backend.places.map (fun x => if x.id == id then p1 else x) }
      { result := .ok p1, state := { st with backend := b1 },
        events := [.gw (.updatePlace id)] }

/-- TripsService.createTripPlace: offline check, insert with the alert flag
defaulted to false, notification scheduling from the re-selected details,
then refreshes of the owning trip's places and of the trip list. -/
def createTripPlace (st : SyncState) (now : DateTime)
    (tripPlace : TripPlaceInsert) : WriteOut TripPlaceRow :=
  match checkOnlineOrError st with
  | .error e => { result := .error e, state := st, events := [] }
  | .ok _ =>
    let b := st.backend
    let row : TripPlaceRow :=
      { id := b.nextId, trip_id := tripPlace.trip_id,
        place_id := tripPlace.place_id, visit_order := tripPlace.visit_order,
        arrival_date := tripPlace.arrival_date,
        departure_date := tripPlace.departure_date,
        is_alert_active := tripPlace.is_alert_active.getD false,
        note := tripPlace.note }
    let b1 := { b with tripPlaces := b.tripPlaces ++ [row],
                       nextId := b.nextId + 1 }
    let notif1 :=
      match getTripPlaceWithDetails b1 row.id with
      | some details => scheduleNotificationForSpot now st.notif details
      | none => st.notif
    let st1 := { st with backend := b1, notif := notif1 }
    let r1 := refreshTripPlacesM st1 row.trip_id
    let r2 := refreshTripsM r1.1
    { result := .ok row, state := r2.1,
      events := [.gw .insertTripPlace, .gw (.selectTripPlaceById row.id),
                 .refreshPlaces row.trip_id] ++ r1.2 ++ [.refreshTrips] ++ r2.2 }

/-- TripsService.updateTripPlace: offline check, update-single, notification
cancel-and-reschedule from the re-selected details, then both refreshes. -/
def updateTripPlace (st : SyncState) (now : DateTime) (id : Nat)
    (u : TripPlaceUpdate) : WriteOut TripPlaceRow :=
  match checkOnlineOrError st with
  | .error e => { result := .error e, state := st, events := [] }
  | .ok _ =>
    match st.backend.tripPlaces.find? (fun r => r.id == id) with
    | none =>
      { result := .error .remote, state := st,
        events := [.gw (.updateTripPlace id)] }
    | some r0 =>
      let r1 := applyTripPlaceUpdate r0 u
      let b1 := { st.backend with
        tripPlaces :=
          st.backend.tripPlaces.map (fun x => if x.id == id then r1 else x) }
      let notif1 :=
        match getTripPlaceWithDetails b1 id with
        | some details => updateNotification now st.notif details
        | none => st.notif
      let st1 := { st with backend := b1, notif := notif1 }
      let p1 := refreshTripPlacesM st1 r1.trip_id
      let p2 := refreshTripsM p1.1
      { result := .ok r1, state := p2.1,
        events := [.gw (.updateTripPlace id), .gw (.selectTripPlaceById id),
                   .refreshPlaces r1.trip_id] ++ p1.2 ++ [.refreshTrips] ++ p2.2 }

/-- TripsService.deleteTripPlace: offline check, delete, unconditional
notification cancel keyed by the id, then both refreshes. -/
def deleteTripPlace (st : SyncState) (id : Nat) (tripId : Nat) :
    WriteOut Unit :=
  match checkOnlineOrError st with
  | .error e => { result := .error e, state := st, events := [] }
  | .ok _ =>
    let b1 := { st.backend with
      tripPlaces := st.backend.tripPlaces.filter (fun r => r.id != id) }
    let st1 := { st with backend := b1,
                         notif := cancelNotification st.notif id }
    let r1 := refreshTripPlacesM st1 tripId
    let r2 := refreshTripsM r1.1
    { result := .ok (), state := r2.1,
      events := [.gw (.deleteTripPlace id), .refreshPlaces tripId] ++ r1.2
                ++ [.refreshTrips] ++ r2.2 }

/-- One row's view of a visit-order update request
(`update({visit_order}).eq('id', id).eq('trip_id', tripId)`). -/
def applyVoRow (tripId : Nat) (r : TripPlaceRow) (u : Nat × Nat) : TripPlaceRow :=
  if r.id == u.1 && r.trip_id == tripId then { r with visit_order := u.2 } else r

/-- One visit-order update applied to the whole table. -/
def applyVoUpdate (tripId : Nat) (rows : List TripPlaceRow) (u : Nat × Nat) :
    List TripPlaceRow :=
  rows.map (fun r => applyVoRow tripId r u)

/-- TripsService.reorderTripPlaces: offline fast-fail, then one sequential
visit-order update per listed id (0-based positional index), and only after
all updates a single refresh of the trip's places followed by the trip list
refresh. -/
def reorderTripPlaces (st : SyncState) (tripId : Nat)
    (orderedTripPlaceIds : List Nat) : WriteOut Unit :=
  if !st.online then { result := .error .offline, state := st, events := [] }
  else
    let updates := orderedTripPlaceIds.enum.map (fun p => (p.2, p.1))
    let rows1 := updates.foldl (applyVoUpdate tripId) st.backend.tripPlaces
    let st1 := { st with backend := { st.backend with tripPlaces := rows1 } }
    let r1 := refreshTripPlacesM st1 tripId
    let r2 := refreshTripsM r1.1
    { result := .ok (), state := r2.1,
      events := updates.map (fun u => Ev.gw (.updateVisitOrder tripId u.1 u.2))
                ++ [.refreshPlaces tripId] ++ r1.2 ++ [.refreshTrips] ++ r2.2 }

/-! ## Derived definitions and concrete fixtures -/

/-- Association-list lookup keyed by a natural id (used for the platform's
pending-notification list and the per-trip maps). -/
def alookup {β : Type} (l : List (Nat × β)) (k : Nat) : Option β :=
  (l.find? (fun e => e.1 == k)).map (fun e => e.2)

/-- The per-row effect of the whole reorder update sequence: a row of the
trip whose id is listed receives the id's 0-based position as visit order. -/
def voAssign (tripId : Nat) (ids : List Nat) (r : TripPlaceRow) : TripPlaceRow :=
  if r.trip_id = tripId ∧ r.id ∈ ids then
    { r with visit_order := ids.indexOf r.id }
  else r

/-- Shifts an instant by whole days (used to state "more than one day in
the future"). -/
def addDays (x : DateTime) (n : Int) : DateTime := { x with day := x.day + n }

/-- A concrete trip used by witnesses. -/
def fixtureTrip : Trip :=
  { id := 1, name := "Rom", note := none, start_date := none,
    end_date := none, created_at := 0 }

/-- A concrete place used by witnesses. -/
def fixturePlace : PlaceRec :=
  { id := 100, name := "Colosseum", latitude := 41, longitude := 12 }

/-- A concrete trip place row of trip 10 used by witnesses. -/
def fixtureRow1 : TripPlaceRow :=
  { id := 1, trip_id := 10, place_id := 100, visit_order := 0,
    arrival_date := none, departure_date := none, is_alert_active := false,
    note := none }

/-- A second concrete row of trip 10. -/
def fixtureRow2 : TripPlaceRow := { fixtureRow1 with id := 2, visit_order := 1 }

/-- A third concrete row of trip 10. -/
def fixtureRow3 : TripPlaceRow := { fixtureRow1 with id := 3, visit_order := 2 }

/-- A concrete backend holding trip 10's three places. -/
def fixtureBackend : Backend :=
  { trips := [fixtureTrip], places := [fixturePlace],
    tripPlaces := [fixtureRow1, fixtureRow2, fixtureRow3], nextId := 4 }

/-- A concrete online service state with trip 10's subject present. -/
def fixtureOnlineState : SyncState :=
  { online := true, backend := fixtureBackend, tripsSubject := [],
    placeSubjects := [(10, [])], cachedTrips := [], cachedPlaces := [],
    notif := initialNotifState true }

/-- The same service state while offline. -/
def fixtureOfflineState : SyncState := { fixtureOnlineState with online := false }

/-- A concrete trip place with details: alert set, arrival on day 20. -/
def fixtureTPD : TripPlaceWithDetails :=
  { id := 7, trip_id := 10, place_id := 100, visit_order := 0,
    arrival_date := some { day := 20, msOfDay := 0 }, departure_date := none,
    is_alert_active := true, note := none, place_name := "Colosseum",
    place_latitude := 41, place_longitude := 12 }

/-- A Preferences instance whose every platform call fails. -/
def prefsAllFail : Prefs :=
  { kv := [], getFails := fun _ => true, setFails := fun _ => true,
    removeFails := fun _ => true }

/-- A Preferences instance with an empty store and no failures. -/
def prefsEmptyOk : Prefs :=
  { kv := [], getFails := fun _ => false, setFails := fun _ => false,
    removeFails := fun _ => false }

/-- A populated, failure-free Preferences instance. -/
def fixturePrefs : Prefs :=
  { kv := [(TRIPS_KEY, .trips [fixtureTrip]),
           (tripPlacesKey 5, .tripPlaces [fixtureTPD])],
    getFails := fun _ => false, setFails := fun _ => false,
    removeFails := fun _ => false }

/-! ## Helper lemmas -/

theorem find_key_filter_self {α β : Type} [BEq α] [LawfulBEq α]
    (l : List (α × β)) (k : α) :
    (l.filter (fun e => e.1 != k)).find? (fun e => e.1 == k) = none := by
  induction l with
  | nil => rfl
  | cons e t ih =>
    by_cases he : e.1 = k
    · simpa [List.filter_cons, he] using ih
    · simpa [List.filter_cons, List.find?_cons, he] using ih

theorem find_key_filter_ne {α β : Type} [BEq α] [LawfulBEq α]
    (l : List (α × β)) (j k : α) (h : k ≠ j) :
    (l.filter (fun e => e.1 != j)).find? (fun e => e.1 == k)
      = l.find? (fun e => e.1 == k) := by
  induction l with
  | nil => rfl
  | cons e t ih =>
    by_cases hej : e.1 = j
    · have hjk : (j == k) = false := by
        rw [beq_eq_false_iff_ne]; exact fun hh => h hh.symm
      have hek : (e.1 == k) = false := by rw [hej]; exact hjk
      have hbne : (e.1 != j) = false := by simp [hej]
      simp [List.filter_cons, hbne, List.find?_cons, hek, ih]
    · have hbne : (e.1 != j) = true := by simp [hej]
      by_cases hek : e.1 = k
      · have hbk : (e.1 == k) = true := by simp [hek]
        simp [List.filter_cons, hbne, List.find?_cons, hbk]
      · have hbk : (e.1 == k) = false := by simp [hek]
        simp [List.filter_cons, hbne, List.find?_cons, hbk, ih]

/-! ## Claim C7 -/

/-- C7: for every failure of the underlying key-value store, the cache store
operations never propagate an error: the getters return the empty list on
read failure and on an absent key, and the cache writers swallow write
failures and return normally. -/
theorem cache_store_swallows_failures (p : Prefs) (trips : List Trip)
    (tid : Nat) (tps : List TripPlaceWithDetails) :
    (cacheTrips p trips).1 = .ok () ∧
    (cacheTripPlaces p tid tps).1 = .ok () ∧
    (p.getFails TRIPS_KEY = true → getCachedTrips p = []) ∧
    (prefsGet p TRIPS_KEY = .ok none → getCachedTrips p = []) ∧
    (p.getFails (tripPlacesKey tid) = true → getCachedTripPlaces p tid = []) ∧
    (prefsGet p (tripPlacesKey tid) = .ok none → getCachedTripPlaces p tid = []) := by
  refine ⟨?_, ?_, ?_, ?_, ?_, ?_⟩
  · unfold cacheTrips
    cases prefsSet p TRIPS_KEY (.trips trips) <;> rfl
  · unfold cacheTripPlaces
    cases prefsSet p (tripPlacesKey tid) (.tripPlaces tps) <;> rfl
  · intro h; simp [getCachedTrips, prefsGet, h]
  · intro h; simp [getCachedTrips, h]
  · intro h; simp [getCachedTripPlaces, prefsGet, h]
  · intro h; simp [getCachedTripPlaces, h]

/-- C7 witness: the failing store and the empty store both read back as
empty, and the writers report success against a failing store. -/
theorem cache_store_swallows_failures_witness :
    (cacheTrips prefsAllFail [fixtureTrip]).1 = .ok () ∧
    (cacheTripPlaces prefsAllFail 5 [fixtureTPD]).1 = .ok () ∧
    getCachedTrips prefsAllFail = [] ∧
    getCachedTripPlaces prefsAllFail 5 = [] ∧
    getCachedTrips prefsEmptyOk = [] ∧
    getCachedTripPlaces prefsEmptyOk 5 = [] :=
  ⟨(cache_store_swallows_failures prefsAllFail [fixtureTrip] 5 [fixtureTPD]).1,
   (cache_store_swallows_failures prefsAllFail [fixtureTrip] 5 [fixtureTPD]).2.1,
   (cache_store_swallows_failures prefsAllFail [] 5 []).2.2.1 rfl,
   (cache_store_swallows_failures prefsAllFail [] 5 []).2.2.2.2.1 rfl,
   (cache_store_swallows_failures prefsEmptyOk [] 5 []).2.2.2.1 rfl,
   (cache_store_swallows_failures prefsEmptyOk [] 5 []).2.2.2.2.2 rfl⟩

/-! ## Claim C9 -/

theorem netFold_value (evs : List NetEvent) :
    ∀ st : NetworkState, st.initialized = true →
      (evs.foldl applyNetEvent st).value = lastStatus st.value evs ∧
      (evs.foldl applyNetEvent st).initialized = true := by
  induction evs with
  | nil => intro st h; exact ⟨rfl, h⟩
  | cons e t ih =>
    intro st hst
    cases e with
    | initNetwork s =>
      have h1 : applyNetEvent st (.initNetwork s) = st := by
        simp [applyNetEvent, hst]
      rw [List.foldl_cons, h1]
      exact ih st hst
    | statusChange s =>
      have h1 : applyNetEvent st (.statusChange s) = { st with value := s } := rfl
      rw [List.foldl_cons, h1]
      simp only [lastStatus]
      exact ih { st with value := s } hst

/-- C9: the monitor's online state is read once at startup from the
platform, so the synchronous query reports the platform value before any
change event arrives; a second initialization does not re-read; and
thereafter the value changes only with platform-pushed change events (it
always equals the last pushed status). -/
theorem network_initial_state_from_platform (s : Bool) :
    isOnline (applyNetEvent initialNetworkState (.initNetwork s)) = s ∧
    (∀ st : NetworkState, st.initialized = true →
      applyNetEvent st (.initNetwork s) = st) ∧
    (∀ evs : List NetEvent,
      isOnline (evs.foldl applyNetEvent
        (applyNetEvent initialNetworkState (.initNetwork s)))
        = lastStatus s evs) := by
  refine ⟨rfl, ?_, ?_⟩
  · intro st h; simp [applyNetEvent, h]
  · intro evs
    have h0 : applyNetEvent initialNetworkState (.initNetwork s)
        = { value := s, initialized := true } := rfl
    rw [h0]
    exact (netFold_value evs { value := s, initialized := true } rfl).1

/-- C9 witness: with the platform reporting offline at startup the query
says offline; re-initialization is a no-op; after pushed events the query
tracks the last pushed status. -/
theorem network_initial_state_from_platform_witness :
    isOnline (applyNetEvent initialNetworkState (.initNetwork false)) = false ∧
    applyNetEvent { value := true, initialized := true } (.initNetwork false)
      = { value := true, initialized := true } ∧
    isOnline ([NetEvent.statusChange true, NetEvent.statusChange false].foldl
        applyNetEvent (applyNetEvent initialNetworkState (.initNetwork true)))
      = lastStatus true [NetEvent.statusChange true, NetEvent.statusChange false] :=
  ⟨(network_initial_state_from_platform false).1,
   (network_initial_state_from_platform false).2.1 _ rfl,
   (network_initial_state_from_platform true).2.2 _⟩

/-! ## Claim C8 -/

theorem resolve_spotIds_filter (allSpots : List SpotWithTrip) (ids : List Nat) :
    ((ids.map (fun spotId =>
        match allSpots.find? (fun s => s.id == spotId) with
        | none => none
        | some spot =>
          some { id := spot.id, name := spot.name, tripName := spot.tripName,
                 arrivalDate := spot.arrivalDate : SpotRef })).filterMap id).map
      (fun s => s.id)
    = ids.filter (fun sid => allSpots.any (fun s => s.id == sid)) := by
  induction ids with
  | nil => rfl
  | cons i t ih =>
    cases hf : allSpots.find? (fun s => s.id == i) with
    | none =>
      have hany : (allSpots.any (fun s => s.id == i)) = false := by
        rw [List.any_eq_false]
        intro x hx
        exact List.find?_eq_none.mp hf x hx
      simp only [List.map_cons, hf, List.filterMap_cons, id_eq,
        List.filter_cons, hany, cond_false]
      exact ih
    | some spot =>
      have hid : spot.id = i := by
        have := List.find?_some hf
        simpa using this
      have hany : (allSpots.any (fun s => s.id == i)) = true := by
        rw [List.any_eq_true]
        exact ⟨spot, List.mem_of_find?_eq_some hf, by simp [hid]⟩
      simp only [List.map_cons, hf, List.filterMap_cons, id_eq,
        List.filter_cons, hany, cond_true, List.map_cons]
      rw [ih, hid]
      simp

/-- C8: resolving a note's referenced TripPlace ids against the current
spots yields, silently, exactly the referenced ids that still exist, in
reference order; dangling references are dropped without failing, and the
notes themselves are all still displayed. -/
theorem dangling_spot_references_filtered (entry : DiaryEntry)
    (allSpots : List SpotWithTrip) :
    (enrichEntryWithDetails entry allSpots).notes.map
        (fun n => n.spots.map (fun s => s.id))
      = entry.notes.map
          (fun note => note.spotIds.filter
            (fun sid => allSpots.any (fun s => s.id == sid))) ∧
    (enrichEntryWithDetails entry allSpots).notes.map (fun n => n.id)
      = entry.notes.map (fun n => n.id) := by
  constructor
  · unfold enrichEntryWithDetails
    simp only [List.map_map]
    refine List.map_congr_left ?_
    intro note _
    exact resolve_spotIds_filter allSpots note.spotIds
  · unfold enrichEntryWithDetails
    simp [List.map_map]

/-! ## Claim C10 -/

theorem tripPlacesKey_ne_trips_key (tid : Nat) : tripPlacesKey tid ≠ TRIPS_KEY := by
  intro h
  have hlen := congrArg String.length h
  simp only [tripPlacesKey, TRIP_PLACES_KEY, TRIPS_KEY] at hlen
  rw [String.length_append, String.length_append] at hlen
  have h1 : ("cached_trip_places" : String).length = 18 := rfl
  have h2 : ("_" : String).length = 1 := rfl
  have h3 : ("cached_trips" : String).length = 12 := rfl
  rw [h1, h2, h3] at hlen
  omega

theorem tripPlacesKey_ne_places_key (tid : Nat) : tripPlacesKey tid ≠ PLACES_KEY := by
  intro h
  have hlen := congrArg String.length h
  simp only [tripPlacesKey, TRIP_PLACES_KEY, PLACES_KEY] at hlen
  rw [String.length_append, String.length_append] at hlen
  have h1 : ("cached_trip_places" : String).length = 18 := rfl
  have h2 : ("_" : String).length = 1 := rfl
  have h3 : ("cached_places" : String).length = 13 := rfl
  rw [h1, h2, h3] at hlen
  omega

/-- C10: when the platform removes succeed, clearCache empties the cached
trip list, but every per-trip cached place list is untouched: reading it
back after clearCache yields exactly what it yielded before. -/
theorem clear_cache_leaves_place_lists (p : Prefs) (tid : Nat)
    (h1 : p.removeFails TRIPS_KEY = false)
    (h2 : p.removeFails PLACES_KEY = false)
    (h3 : p.getFails TRIPS_KEY = false) :
    getCachedTrips (clearCache p).2 = [] ∧
    getCachedTripPlaces (clearCache p).2 tid = getCachedTripPlaces p tid := by
  have hkv : (clearCache p).2.kv
      = (p.kv.filter (fun e => e.1 != TRIPS_KEY)).filter
          (fun e => e.1 != PLACES_KEY) := by
    simp [clearCache, prefsRemove, h1, h2]
  have hgf : (clearCache p).2.getFails = p.getFails := by
    simp [clearCache, prefsRemove, h1, h2]
  constructor
  · unfold getCachedTrips prefsGet
    rw [hgf, hkv]
    simp only [h3, Bool.false_eq_true, if_false]
    rw [find_key_filter_ne _ PLACES_KEY TRIPS_KEY (by decide),
        find_key_filter_self]
    rfl
  · unfold getCachedTripPlaces prefsGet
    rw [hgf, hkv]
    rw [find_key_filter_ne _ PLACES_KEY _ (tripPlacesKey_ne_places_key tid),
        find_key_filter_ne _ TRIPS_KEY _ (tripPlacesKey_ne_trips_key tid)]

/-- C10 witness: on a populated failure-free store, clearCache empties the
trip list while trip 5's cached place list reads back unchanged. -/
theorem clear_cache_leaves_place_lists_witness :
    getCachedTrips (clearCache fixturePrefs).2 = [] ∧
    getCachedTripPlaces (clearCache fixturePrefs).2 5
      = getCachedTripPlaces fixturePrefs 5 :=
  clear_cache_leaves_place_lists fixturePrefs 5 rfl rfl rfl

/-! ## Claim C1 -/

/-- C1: every write operation of the service, invoked while the network
status is offline, fails with the offline error before issuing any gateway
call, and the whole service state (subjects, caches, notifications,
backend) is left exactly as it was. -/
theorem writes_offline_fail_fast (st : SyncState) (h : st.online = false)
    (ti : TripInsert) (id tid : Nat) (tu : TripUpdate) (pins : PlaceInsert)
    (pu : PlaceUpdate) (now : DateTime) (tpi : TripPlaceInsert)
    (tpu : TripPlaceUpdate) (ids : List Nat) :
    createTrip st ti = { result := .error .offline, state := st, events := [] } ∧
    updateTrip st id tu = { result := .error .offline, state := st, events := [] } ∧
    deleteTrip st id = { result := .error .offline, state := st, events := [] } ∧
    createPlace st pins = { result := .error .offline, state := st, events := [] } ∧
    updatePlace st id pu = { result := .error .offline, state := st, events := [] } ∧
    createTripPlace st now tpi
      = { result := .error .offline, state := st, events := [] } ∧
    updateTripPlace st now id tpu
      = { result := .error .offline, state := st, events := [] } ∧
    deleteTripPlace st id tid
      = { result := .error .offline, state := st, events := [] } ∧
    reorderTripPlaces st tid ids
      = { result := .error .offline, state := st, events := [] } := by
  refine ⟨?_, ?_, ?_, ?_, ?_, ?_, ?_, ?_, ?_⟩ <;>
    simp [createTrip, updateTrip, deleteTrip, createPlace, updatePlace,
      createTripPlace, updateTripPlace, deleteTripPlace, reorderTripPlaces,
      checkOnlineOrError, h]

/-- C1 witness: against a concrete offline state, each of the nine writes
returns the offline error with no event and an unchanged state. -/
theorem writes_offline_fail_fast_witness :
    createTrip fixtureOfflineState
        { name := "x", note := none, start_date := none, end_date := none }
      = { result := .error .offline, state := fixtureOfflineState, events := [] } ∧
    reorderTripPlaces fixtureOfflineState 10 [3, 1, 2]
      = { result := .error .offline, state := fixtureOfflineState, events := [] } :=
  ⟨(writes_offline_fail_fast fixtureOfflineState rfl
      { name := "x", note := none, start_date := none, end_date := none }
      1 10 { name := none, note := none, start_date := none, end_date := none }
      { name := "p", latitude := 0, longitude := 0 }
      { name := none, latitude := none, longitude := none }
      { day := 0, msOfDay := 0 }
      { trip_id := 10, place_id := 100, visit_order := 0, arrival_date := none,
        departure_date := none, is_alert_active := none, note := none }
      { visit_order := none, arrival_date := none, departure_date := none,
        is_alert_active := none, note := none }
      [3, 1, 2]).1,
   (writes_offline_fail_fast fixtureOfflineState rfl
      { name := "x", note := none, start_date := none, end_date := none }
      1 10 { name := none, note := none, start_date := none, end_date := none }
      { name := "p", latitude := 0, longitude := 0 }
      { name := none, latitude := none, longitude := none }
      { day := 0, msOfDay := 0 }
      { trip_id := 10, place_id := 100, visit_order := 0, arrival_date := none,
        departure_date := none, is_alert_active := none, note := none }
      { visit_order := none, arrival_date := none, departure_date := none,
        is_alert_active := none, note := none }
      [3, 1, 2]).2.2.2.2.2.2.2.2⟩

/-! ## Claim C4 -/

theorem alookup_platformSchedule_self {l : List (Nat × DateTime)} {id : Nat}
    {nd : DateTime} : alookup (platformSchedule l id nd) id = some nd := by
  unfold alookup platformSchedule
  rw [List.find?_append, find_key_filter_self]
  simp

theorem alookup_platformSchedule_ne {l : List (Nat × DateTime)} {id k : Nat}
    {nd : DateTime} (h : k ≠ id) :
    alookup (platformSchedule l id nd) k = alookup l k := by
  unfold alookup platformSchedule
  rw [List.find?_append, find_key_filter_ne _ _ _ h]
  cases hf : l.find? (fun e => e.1 == k) with
  | none => simp [List.find?_cons, Ne.symm h]
  | some e => simp

theorem alookup_filter_ne {β : Type} {l : List (Nat × β)} {j k : Nat}
    (h : k ≠ j) :
    alookup (l.filter (fun e => e.1 != j)) k = alookup l k := by
  unfold alookup
  rw [find_key_filter_ne _ _ _ h]

/-- C4: for a trip place with the alert flag set and an arrival date, the
computed trigger instant is one calendar day before the arrival date at the
fixed local hour 09:00; when that instant is not strictly in the future no
reminder is scheduled; and without the flag or a date nothing is scheduled. -/
theorem notification_trigger_time (st : NotifState) (now : DateTime)
    (tp : TripPlaceWithDetails) :
    (∀ d, tp.arrival_date = some d →
      calculateNotificationDate now d
          = { day := d.day - 1, msOfDay := NOTIFICATION_HOUR * msPerHour } ∧
      (dtLe (calculateNotificationDate now d) now →
        scheduleNotificationForSpot now st tp = st) ∧
      (tp.is_alert_active = true → st.hasPermission = true →
        dtLt now (calculateNotificationDate now d) →
        alookup (scheduleNotificationForSpot now st tp).pending tp.id
          = some (calculateNotificationDate now d))) ∧
    (tp.is_alert_active = false ∨ tp.arrival_date = none →
      scheduleNotificationForSpot now st tp = st) := by
  constructor
  · intro d hd
    refine ⟨?_, ?_, ?_⟩
    · simp [calculateNotificationDate, DEBUG_MODE]
    · intro hle
      unfold scheduleNotificationForSpot
      rw [hd]
      cases halert : tp.is_alert_active with
      | false => simp
      | true =>
        cases hperm : st.hasPermission with
        | false => simp
        | true => simp [hle]
    · intro halert hperm hlt
      have hnle : ¬ dtLe (calculateNotificationDate now d) now := by
        unfold dtLe
        unfold dtLt at hlt
        omega
      unfold scheduleNotificationForSpot
      rw [hd]
      simp only [halert, hperm, Bool.not_true, Bool.false_eq_true, if_false,
        hnle, if_true]
      exact alookup_platformSchedule_self
  · intro h
    rcases h with h | h
    · unfold scheduleNotificationForSpot
      cases harr : tp.arrival_date with
      | none => rfl
      | some d => simp [h]
    · unfold scheduleNotificationForSpot
      rw [h]

/-- C4 witness: with the current day 18 and arrival day 20 the reminder is
pending at day 19, 09:00; an alert-less copy schedules nothing. -/
theorem notification_trigger_time_witness :
    calculateNotificationDate { day := 18, msOfDay := 0 } { day := 20, msOfDay := 0 }
        = { day := 19, msOfDay := NOTIFICATION_HOUR * msPerHour } ∧
    alookup (scheduleNotificationForSpot { day := 18, msOfDay := 0 }
        (initialNotifState true) fixtureTPD).pending fixtureTPD.id
      = some (calculateNotificationDate { day := 18, msOfDay := 0 }
          { day := 20, msOfDay := 0 }) ∧
    scheduleNotificationForSpot { day := 18, msOfDay := 0 }
        (initialNotifState true) { fixtureTPD with is_alert_active := false }
      = initialNotifState true :=
  ⟨((notification_trigger_time (initialNotifState true) { day := 18, msOfDay := 0 }
      fixtureTPD).1 { day := 20, msOfDay := 0 } rfl).1,
   ((notification_trigger_time (initialNotifState true) { day := 18, msOfDay := 0 }
      fixtureTPD).1 { day := 20, msOfDay := 0 } rfl).2.2 rfl rfl (by decide),
   (notification_trigger_time (initialNotifState true) { day := 18, msOfDay := 0 }
      { fixtureTPD with is_alert_active := false }).2 (Or.inl rfl)⟩

/-! ## Claim C3 -/

/-- C3 counterexample: online with a gateway failure and an empty cached
snapshot, the service does not publish the cached snapshot; the subject
keeps its previous (non-empty) value instead. -/
theorem read_error_fallback_counterexample :
    ¬ ((loadTrips { fixtureOnlineState with tripsSubject := [fixtureTrip] }
          GwResult.err).1.tripsSubject
        = { fixtureOnlineState with
            tripsSubject := [fixtureTrip] }.cachedTrips) := by
  decide

/-- C3 amended: offline reads serve the cached snapshot without a gateway
call; online reads that fail fall back to the cached snapshot when it is
non-empty and otherwise leave the published value unchanged; no error is
ever surfaced to subscribers; and a successful online read followed by a
transition to offline serves the fresh snapshot from the cache. -/
theorem read_error_fallback_amended (st : SyncState) (tid : Nat)
    (gw : GwResult (List Trip)) (gwp : GwResult (List TripPlaceWithDetails)) :
    (st.online = false → loadTrips st gw
        = ({ st with tripsSubject := st.cachedTrips }, [])) ∧
    (st.online = false → loadTripPlaces st tid gwp
        = ({ st with placeSubjects := (subjNext st.placeSubjects tid
              (cacheAt st.cachedPlaces tid)) }, [])) ∧
    (st.online = true → st.cachedTrips ≠ [] →
      (loadTrips st .err).1.tripsSubject = st.cachedTrips) ∧
    (st.online = true → st.cachedTrips = [] →
      loadTrips st .err = (st, [.gw .selectTrips])) ∧
    (st.online = true → cacheAt st.cachedPlaces tid ≠ [] →
      (loadTripPlaces st tid .err).1.placeSubjects
        = subjNext st.placeSubjects tid (cacheAt st.cachedPlaces tid)) ∧
    (st.online = true → cacheAt st.cachedPlaces tid = [] →
      loadTripPlaces st tid .err = (st, [.gw (.selectTripPlaces tid)])) ∧
    (st.online = true → ∀ trips : List Trip,
      (loadTrips { (loadTrips st (.ok trips)).1 with online := false }
          gw).1.tripsSubject = trips) := by
  refine ⟨?_, ?_, ?_, ?_, ?_, ?_, ?_⟩
  · intro h; simp [loadTrips, h]
  · intro h; simp [loadTripPlaces, h]
  · intro h hne; simp [loadTrips, h, hne]
  · intro h he; simp [loadTrips, h, he]
  · intro h hne; simp [loadTripPlaces, h, hne]
  · intro h he; simp [loadTripPlaces, h, he]
  · intro h trips; simp [loadTrips, h]

/-- C3 witness: instantiated on concrete states, covering the offline
serve, the non-empty-cache fallback, the empty-cache no-op, and the
online-success-then-offline scenario. -/
theorem read_error_fallback_amended_witness :
    (loadTrips fixtureOfflineState GwResult.err
        = ({ fixtureOfflineState with
             tripsSubject := fixtureOfflineState.cachedTrips }, [])) ∧
    ((loadTrips { fixtureOnlineState with cachedTrips := [fixtureTrip] }
        GwResult.err).1.tripsSubject = [fixtureTrip]) ∧
    (loadTrips fixtureOnlineState GwResult.err
        = (fixtureOnlineState, [.gw .selectTrips])) ∧
    ((loadTrips { (loadTrips fixtureOnlineState (.ok [fixtureTrip])).1 with
          online := false } GwResult.err).1.tripsSubject = [fixtureTrip]) :=
  ⟨(read_error_fallback_amended fixtureOfflineState 10 GwResult.err
      GwResult.err).1 rfl,
   (read_error_fallback_amended
      { fixtureOnlineState with cachedTrips := [fixtureTrip] } 10 GwResult.err
      GwResult.err).2.2.1 rfl (by decide),
   (read_error_fallback_amended fixtureOnlineState 10 GwResult.err
      GwResult.err).2.2.2.1 rfl rfl,
   (read_error_fallback_amended fixtureOnlineState 10 GwResult.err
      GwResult.err).2.2.2.2.2.2 rfl [fixtureTrip]⟩

/-! ## Claim C6 -/

theorem notmem_keys_filter {β : Type} {l : List (Nat × β)} {q : Nat × β → Bool}
    {x : Nat} (h : x ∉ l.map (fun e => e.1)) :
    x ∉ (l.filter q).map (fun e => e.1) := by
  intro hx
  rcases List.mem_map.mp hx with ⟨e, he, hex⟩
  exact h (List.mem_map.mpr ⟨e, (List.mem_filter.mp he).1, hex⟩)

theorem notmem_keys_filter_self {β : Type} (l : List (Nat × β)) (k : Nat) :
    k ∉ (l.filter (fun e => e.1 != k)).map (fun e => e.1) := by
  intro hk
  rcases List.mem_map.mp hk with ⟨e, he, hex⟩
  have := (List.mem_filter.mp he).2
  rw [hex] at this
  simp at this

theorem platformSchedule_notmem {l : List (Nat × DateTime)} {id x : Nat}
    {nd : DateTime} (h : x ∉ l.map (fun e => e.1)) (hne : x ≠ id) :
    x ∉ (platformSchedule l id nd).map (fun e => e.1) := by
  unfold platformSchedule
  rw [List.map_append]
  intro hx
  rcases List.mem_append.mp hx with hx | hx
  · exact notmem_keys_filter h hx
  · simp at hx
    exact hne hx

theorem scheduleNotificationForSpot_cases (now : DateTime) (st : NotifState)
    (tp : TripPlaceWithDetails) :
    scheduleNotificationForSpot now st tp = st ∨
    ∃ d, tp.arrival_date = some d ∧
      scheduleNotificationForSpot now st tp
        = { st with
            pending := (platformSchedule st.pending tp.id
              (calculateNotificationDate now d)),
            schedules := (st.schedules.filter (fun e => e.1 != tp.id)
              ++ [(tp.id, calculateNotificationDate now d)]) } := by
  unfold scheduleNotificationForSpot
  cases harr : tp.arrival_date with
  | none => exact Or.inl rfl
  | some d =>
    by_cases halert : tp.is_alert_active
    · by_cases hperm : st.hasPermission
      · by_cases hle : dtLe (calculateNotificationDate now d) now
        · left; simp [halert, hperm, hle]
        · right
          exact ⟨d, rfl, by simp [halert, hperm, hle]⟩
      · left; simp [hperm]
    · left; simp [halert]

theorem schedule_pending_notmem {now : DateTime} {st : NotifState}
    {tp : TripPlaceWithDetails} {x : Nat}
    (h : x ∉ st.pending.map (fun e => e.1)) (hne : x ≠ tp.id) :
    x ∉ (scheduleNotificationForSpot now st tp).pending.map (fun e => e.1) := by
  rcases scheduleNotificationForSpot_cases now st tp with hc | ⟨d, _, hc⟩
  · rw [hc]; exact h
  · rw [hc]; exact platformSchedule_notmem h hne

theorem schedule_pending_lookup_ne {now : DateTime} {st : NotifState}
    {tp : TripPlaceWithDetails} {x : Nat} (hne : x ≠ tp.id) :
    alookup (scheduleNotificationForSpot now st tp).pending x
      = alookup st.pending x := by
  rcases scheduleNotificationForSpot_cases now st tp with hc | ⟨d, _, hc⟩
  · rw [hc]
  · rw [hc]; exact alookup_platformSchedule_ne hne

theorem syncCancelStep_cases (tps : List TripPlaceWithDetails)
    (acc : NotifState × List Nat) (q : Nat) :
    syncCancelStep tps acc q = (cancelNotification acc.1 q, acc.2 ++ [q]) ∨
    ∃ tp, tps.find? (fun x => x.id == q) = some tp ∧
      tp.is_alert_active = true ∧ tp.arrival_date ≠ none ∧
      syncCancelStep tps acc q = acc := by
  unfold syncCancelStep
  cases hf : tps.find? (fun x => x.id == q) with
  | none => exact Or.inl rfl
  | some tp =>
    by_cases hcond : tp.is_alert_active = false ∨ tp.arrival_date = none
    · left
      simp only [hcond, if_true]
    · right
      push_neg at hcond
      have halert : tp.is_alert_active = true := by
        cases hb : tp.is_alert_active
        · exact absurd hb hcond.1
        · rfl
      refine ⟨tp, rfl, halert, hcond.2, ?_⟩
      have hcond2 : ¬(tp.is_alert_active = false ∨ tp.arrival_date = none) := by
        rintro (hh | hh)
        · exact hcond.1 hh
        · exact hcond.2 hh
      simp only [hcond2, if_false]

theorem syncScheduleStep_cases (now : DateTime) (pids : List Nat)
    (acc : NotifState × List Nat) (tp : TripPlaceWithDetails) :
    syncScheduleStep now pids acc tp = acc ∨
    (pids.contains tp.id = false ∧ tp.is_alert_active = true ∧
      tp.arrival_date ≠ none ∧
      syncScheduleStep now pids acc tp
        = (scheduleNotificationForSpot now acc.1 tp, acc.2 ++ [tp.id])) := by
  unfold syncScheduleStep
  by_cases hcond : tp.is_alert_active = true ∧ tp.arrival_date ≠ none
  · rw [if_pos hcond]
    cases hc : pids.contains tp.id with
    | true => left; simp [hc]
    | false =>
      right
      exact ⟨rfl, hcond.1, hcond.2, by simp [hc]⟩
  · left
    rw [if_neg hcond]

theorem cancelStep_notmem {tps : List TripPlaceWithDetails}
    {acc : NotifState × List Nat} {q x : Nat}
    (h : x ∉ acc.1.pending.map (fun e => e.1)) :
    x ∉ (syncCancelStep tps acc q).1.pending.map (fun e => e.1) := by
  rcases syncCancelStep_cases tps acc q with hc | ⟨tp, _, _, _, hc⟩
  · rw [hc]
    exact notmem_keys_filter h
  · rw [hc]
    exact h

theorem cancelFold_notmem {tps : List TripPlaceWithDetails} {x : Nat}
    (pids : List Nat) (acc : NotifState × List Nat)
    (h : x ∉ acc.1.pending.map (fun e => e.1)) :
    x ∉ (pids.foldl (syncCancelStep tps) acc).1.pending.map (fun e => e.1) := by
  induction pids generalizing acc with
  | nil => exact h
  | cons q rest ih => exact ih _ (cancelStep_notmem h)

theorem cancelFold_kills {tps : List TripPlaceWithDetails} {pid : Nat}
    (hstale : ∀ tp ∈ tps, tp.id = pid →
      ¬(tp.is_alert_active = true ∧ tp.arrival_date ≠ none))
    (pids : List Nat) (acc : NotifState × List Nat) (hmem : pid ∈ pids) :
    pid ∉ (pids.foldl (syncCancelStep tps) acc).1.pending.map (fun e => e.1) := by
  induction pids generalizing acc with
  | nil => cases hmem
  | cons q rest ih =>
    rw [List.foldl_cons]
    rcases List.mem_cons.mp hmem with hq | hq
    · subst hq
      apply cancelFold_notmem
      rcases syncCancelStep_cases tps acc pid with hc | ⟨tp, hf, halert, harr, hc⟩
      · rw [hc]
        exact notmem_keys_filter_self _ _
      · exfalso
        have htpid : tp.id = pid := by simpa using List.find?_some hf
        exact hstale tp (List.mem_of_find?_eq_some hf) htpid ⟨halert, harr⟩
    · exact ih _ hq

theorem schedFold_notmem {now : DateTime} {pids : List Nat} {pid : Nat}
    (tps : List TripPlaceWithDetails) (acc : NotifState × List Nat)
    (h : pid ∉ acc.1.pending.map (fun e => e.1))
    (hstale : ∀ tp ∈ tps, tp.id = pid →
      ¬(tp.is_alert_active = true ∧ tp.arrival_date ≠ none)) :
    pid ∉ (tps.foldl (syncScheduleStep now pids) acc).1.pending.map
      (fun e => e.1) := by
  induction tps generalizing acc with
  | nil => exact h
  | cons tp rest ih =>
    rw [List.foldl_cons]
    refine ih _ ?_ (fun q hq => hstale q (List.mem_cons_of_mem _ hq))
    rcases syncScheduleStep_cases now pids acc tp with hc | ⟨_, halert, harr, hc⟩
    · rw [hc]; exact h
    · rw [hc]
      refine schedule_pending_notmem h ?_
      intro heq
      exact hstale tp (List.mem_cons_self _ _) heq.symm ⟨halert, harr⟩

theorem schedTrace_mono {now : DateTime} {pids : List Nat} {x : Nat}
    (tps : List TripPlaceWithDetails) (acc : NotifState × List Nat)
    (h : x ∈ acc.2) : x ∈ (tps.foldl (syncScheduleStep now pids) acc).2 := by
  induction tps generalizing acc with
  | nil => exact h
  | cons tp rest ih =>
    rw [List.foldl_cons]
    refine ih _ ?_
    rcases syncScheduleStep_cases now pids acc tp with hc | ⟨_, _, _, hc⟩
    · rw [hc]; exact h
    · rw [hc]
      exact List.mem_append_left _ h

theorem schedFold_trace_mem {now : DateTime} {pids : List Nat}
    {tp : TripPlaceWithDetails}
    (hcond : tp.is_alert_active = true ∧ tp.arrival_date ≠ none)
    (hnp : pids.contains tp.id = false)
    (tps : List TripPlaceWithDetails) (acc : NotifState × List Nat)
    (hmem : tp ∈ tps) :
    tp.id ∈ (tps.foldl (syncScheduleStep now pids) acc).2 := by
  induction tps generalizing acc with
  | nil => cases hmem
  | cons q rest ih =>
    rw [List.foldl_cons]
    rcases List.mem_cons.mp hmem with hq | hq
    · subst hq
      apply schedTrace_mono
      have hstep : syncScheduleStep now pids acc tp
          = (scheduleNotificationForSpot now acc.1 tp, acc.2 ++ [tp.id]) := by
        unfold syncScheduleStep
        rw [if_pos hcond, hnp]
        simp
      rw [hstep]
      simp
    · exact ih _ hq

theorem schedFold_trace_notmem {now : DateTime} {pids : List Nat} {x : Nat}
    (hx : x ∈ pids)
    (tps : List TripPlaceWithDetails) (acc : NotifState × List Nat)
    (h : x ∉ acc.2) :
    x ∉ (tps.foldl (syncScheduleStep now pids) acc).2 := by
  induction tps generalizing acc with
  | nil => exact h
  | cons q rest ih =>
    rw [List.foldl_cons]
    refine ih _ ?_
    rcases syncScheduleStep_cases now pids acc q with hc | ⟨hnp, _, _, hc⟩
    · rw [hc]; exact h
    · rw [hc]
      intro hmem
      rcases List.mem_append.mp hmem with hmem2 | hmem2
      · exact h hmem2
      · have hqx : x = q.id := by simpa using hmem2
        rw [hqx] at hx
        have : pids.contains q.id = true := List.elem_iff.mpr hx
        rw [this] at hnp
        cases hnp

theorem find_id_nodup {tps : List TripPlaceWithDetails}
    {tp : TripPlaceWithDetails}
    (hnd : (tps.map (fun x => x.id)).Nodup) (hmem : tp ∈ tps) :
    tps.find? (fun x => x.id == tp.id) = some tp := by
  induction tps with
  | nil => cases hmem
  | cons q rest ih =>
    rw [List.map_cons, List.nodup_cons] at hnd
    rcases List.mem_cons.mp hmem with hq | hq
    · subst hq
      simp [List.find?_cons]
    · have hqne : (q.id == tp.id) = false := by
        rw [beq_eq_false_iff_ne]
        intro heq
        exact hnd.1 (heq ▸ List.mem_map.mpr ⟨tp, hq, rfl⟩)
      rw [List.find?_cons, hqne]
      exact ih hnd.2 hq

theorem cancelFold_lookup_preserved {tps : List TripPlaceWithDetails}
    {tp : TripPlaceWithDetails}
    (hfind : tps.find? (fun x => x.id == tp.id) = some tp)
    (hcond : tp.is_alert_active = true ∧ tp.arrival_date ≠ none)
    (pids : List Nat) (acc : NotifState × List Nat) :
    alookup (pids.foldl (syncCancelStep tps) acc).1.pending tp.id
      = alookup acc.1.pending tp.id := by
  induction pids generalizing acc with
  | nil => rfl
  | cons q rest ih =>
    rw [List.foldl_cons, ih]
    by_cases hq : q = tp.id
    · subst hq
      have hstep : syncCancelStep tps acc tp.id = acc := by
        unfold syncCancelStep
        rw [hfind]
        have hncond : ¬(tp.is_alert_active = false ∨ tp.arrival_date = none) := by
          rintro (h | h)
          · rw [hcond.1] at h; cases h
          · exact hcond.2 h
        simp only [hncond, if_false]
      rw [hstep]
    · rcases syncCancelStep_cases tps acc q with hc | ⟨w, _, _, _, hc⟩
      · rw [hc]
        exact alookup_filter_ne (fun heq => hq heq.symm)
      · rw [hc]

theorem schedFold_lookup_preserved {now : DateTime} {pids : List Nat}
    {tp : TripPlaceWithDetails} (hcont : pids.contains tp.id = true)
    (tps : List TripPlaceWithDetails) (acc : NotifState × List Nat) :
    alookup (tps.foldl (syncScheduleStep now pids) acc).1.pending tp.id
      = alookup acc.1.pending tp.id := by
  induction tps generalizing acc with
  | nil => rfl
  | cons q rest ih =>
    rw [List.foldl_cons, ih]
    rcases syncScheduleStep_cases now pids acc q with hc | ⟨hnp, _, _, hc⟩
    · rw [hc]
    · rw [hc]
      refine schedule_pending_lookup_ne ?_
      intro heq
      rw [heq] at hcont
      rw [hcont] at hnp
      cases hnp

/-- C6: after the startup synchronization pass, every pending reminder whose
trip place is gone, alert-disabled, or dateless has been cancelled; every
active dated trip place not already pending has been passed to scheduling;
and a trip place already pending is left as-is, not rescheduled. -/
theorem sync_all_notifications_reconciles (now : DateTime) (st : NotifState)
    (tps : List TripPlaceWithDetails)
    (hnd : (tps.map (fun tp => tp.id)).Nodup) :
    (∀ pid, pid ∈ st.pending.map (fun e => e.1) →
      (∀ tp ∈ tps, tp.id = pid →
        ¬(tp.is_alert_active = true ∧ tp.arrival_date ≠ none)) →
      pid ∉ (syncAllNotifications now st tps).1.pending.map (fun e => e.1)) ∧
    (∀ tp ∈ tps, tp.is_alert_active = true → tp.arrival_date ≠ none →
      tp.id ∉ st.pending.map (fun e => e.1) →
      tp.id ∈ (syncAllNotifications now st tps).2.2) ∧
    (∀ tp ∈ tps, tp.is_alert_active = true → tp.arrival_date ≠ none →
      tp.id ∈ st.pending.map (fun e => e.1) →
      tp.id ∉ (syncAllNotifications now st tps).2.2 ∧
      alookup (syncAllNotifications now st tps).1.pending tp.id
        = alookup st.pending tp.id) := by
  refine ⟨?_, ?_, ?_⟩
  · intro pid hpid hstale
    unfold syncAllNotifications
    apply schedFold_notmem _ _ _ hstale
    apply cancelFold_kills hstale
    rw [List.mem_dedup]
    exact hpid
  · intro tp hmem halert harr hnp
    unfold syncAllNotifications
    have hcont : ((st.pending.map (fun e => e.1)).dedup).contains tp.id
        = false := by
      by_contra hc
      rw [Bool.not_eq_false] at hc
      exact hnp (List.mem_dedup.mp (List.elem_iff.mp hc))
    exact schedFold_trace_mem ⟨halert, harr⟩ hcont tps _ hmem
  · intro tp hmem halert harr hp
    have hdedup : tp.id ∈ (st.pending.map (fun e => e.1)).dedup :=
      List.mem_dedup.mpr hp
    have hcont : ((st.pending.map (fun e => e.1)).dedup).contains tp.id
        = true := List.elem_iff.mpr hdedup
    constructor
    · unfold syncAllNotifications
      exact schedFold_trace_notmem hdedup tps _ (by simp)
    · unfold syncAllNotifications
      rw [schedFold_lookup_preserved hcont,
          cancelFold_lookup_preserved (find_id_nodup hnd hmem) ⟨halert, harr⟩]

/-- C6 witness: with the active dated place 7 already pending, a stale
pending id 8, and a new active place 9, the pass cancels 8, does not
reschedule 7 (its entry is untouched), and passes 9 to scheduling. -/
theorem sync_all_notifications_reconciles_witness :
    (8 ∉ (syncAllNotifications { day := 18, msOfDay := 0 }
        { hasPermission := true,
          pending := [(7, { day := 19, msOfDay := 32400000 }),
                      (8, { day := 19, msOfDay := 32400000 })],
          schedules := [] }
        [fixtureTPD, { fixtureTPD with id := 9 }]).1.pending.map
          (fun e => e.1)) ∧
    (9 ∈ (syncAllNotifications { day := 18, msOfDay := 0 }
        { hasPermission := true,
          pending := [(7, { day := 19, msOfDay := 32400000 }),
                      (8, { day := 19, msOfDay := 32400000 })],
          schedules := [] }
        [fixtureTPD, { fixtureTPD with id := 9 }]).2.2) ∧
    (7 ∉ (syncAllNotifications { day := 18, msOfDay := 0 }
        { hasPermission := true,
          pending := [(7, { day := 19, msOfDay := 32400000 }),
                      (8, { day := 19, msOfDay := 32400000 })],
          schedules := [] }
        [fixtureTPD, { fixtureTPD with id := 9 }]).2.2) :=
  ⟨(sync_all_notifications_reconciles { day := 18, msOfDay := 0 }
      { hasPermission := true,
        pending := [(7, { day := 19, msOfDay := 32400000 }),
                    (8, { day := 19, msOfDay := 32400000 })],
        schedules := [] }
      [fixtureTPD, { fixtureTPD with id := 9 }] (by decide)).1 8 (by decide)
      (by decide),
   (sync_all_notifications_reconciles { day := 18, msOfDay := 0 }
      { hasPermission := true,
        pending := [(7, { day := 19, msOfDay := 32400000 }),
                    (8, { day := 19, msOfDay := 32400000 })],
        schedules := [] }
      [fixtureTPD, { fixtureTPD with id := 9 }] (by decide)).2.1
      { fixtureTPD with id := 9 } (by decide) (by decide) (by decide)
      (by decide),
   ((sync_all_notifications_reconciles { day := 18, msOfDay := 0 }
      { hasPermission := true,
        pending := [(7, { day := 19, msOfDay := 32400000 }),
                    (8, { day := 19, msOfDay := 32400000 })],
        schedules := [] }
      [fixtureTPD, { fixtureTPD with id := 9 }] (by decide)).2.2 fixtureTPD
      (by decide) (by decide) (by decide) (by decide)).1⟩

/-! ## Claim C5 -/

theorem keys_nodup_filter {β : Type} {l : List (Nat × β)} (q : Nat × β → Bool)
    (h : (l.map (fun e => e.1)).Nodup) :
    ((l.filter q).map (fun e => e.1)).Nodup :=
  List.Nodup.sublist ((List.filter_sublist l).map (fun e => e.1)) h

theorem platformSchedule_keys_nodup {l : List (Nat × DateTime)} {id : Nat}
    {nd : DateTime} (h : (l.map (fun e => e.1)).Nodup) :
    ((platformSchedule l id nd).map (fun e => e.1)).Nodup := by
  unfold platformSchedule
  rw [List.map_append, List.nodup_append]
  refine ⟨keys_nodup_filter _ h, by simp, ?_⟩
  intro a ha hb
  have : a = id := by simpa using hb
  rw [this] at ha
  exact notmem_keys_filter_self l id ha

theorem schedule_keys_nodup {now : DateTime} {st : NotifState}
    {tp : TripPlaceWithDetails} (h : (st.pending.map (fun e => e.1)).Nodup) :
    ((scheduleNotificationForSpot now st tp).pending.map (fun e => e.1)).Nodup := by
  rcases scheduleNotificationForSpot_cases now st tp with hc | ⟨d, _, hc⟩
  · rw [hc]; exact h
  · rw [hc]; exact platformSchedule_keys_nodup h

theorem cancel_keys_nodup {st : NotifState} {id : Nat}
    (h : (st.pending.map (fun e => e.1)).Nodup) :
    ((cancelNotification st id).pending.map (fun e => e.1)).Nodup :=
  keys_nodup_filter _ h

theorem update_keys_nodup {now : DateTime} {st : NotifState}
    {tp : TripPlaceWithDetails} (h : (st.pending.map (fun e => e.1)).Nodup) :
    ((updateNotification now st tp).pending.map (fun e => e.1)).Nodup := by
  unfold updateNotification
  split
  · exact schedule_keys_nodup (cancel_keys_nodup h)
  · exact cancel_keys_nodup h

theorem cancelFold_keys_nodup {tps : List TripPlaceWithDetails}
    (pids : List Nat) (acc : NotifState × List Nat)
    (h : (acc.1.pending.map (fun e => e.1)).Nodup) :
    (((pids.foldl (syncCancelStep tps) acc).1.pending.map
      (fun e => e.1))).Nodup := by
  induction pids generalizing acc with
  | nil => exact h
  | cons q rest ih =>
    rw [List.foldl_cons]
    refine ih _ ?_
    rcases syncCancelStep_cases tps acc q with hc | ⟨tp, _, _, _, hc⟩
    · rw [hc]; exact cancel_keys_nodup h
    · rw [hc]; exact h

theorem schedFold_keys_nodup {now : DateTime} {pids : List Nat}
    (tps : List TripPlaceWithDetails) (acc : NotifState × List Nat)
    (h : (acc.1.pending.map (fun e => e.1)).Nodup) :
    (((tps.foldl (syncScheduleStep now pids) acc).1.pending.map
      (fun e => e.1))).Nodup := by
  induction tps generalizing acc with
  | nil => exact h
  | cons tp rest ih =>
    rw [List.foldl_cons]
    refine ih _ ?_
    rcases syncScheduleStep_cases now pids acc tp with hc | ⟨_, _, _, hc⟩
    · rw [hc]; exact h
    · rw [hc]; exact schedule_keys_nodup h

theorem applyNotifOp_keys_nodup {st : NotifState} {op : NotifOp}
    (h : (st.pending.map (fun e => e.1)).Nodup) :
    ((applyNotifOp st op).pending.map (fun e => e.1)).Nodup := by
  cases op with
  | schedule now tp => exact schedule_keys_nodup h
  | cancel id => exact cancel_keys_nodup h
  | update now tp => exact update_keys_nodup h
  | sync now tps =>
    have hs : applyNotifOp st (.sync now tps)
        = (syncAllNotifications now st tps).1 := rfl
    rw [hs]
    unfold syncAllNotifications
    exact schedFold_keys_nodup _ _ (cancelFold_keys_nodup _ _ h)
  | cancelAll =>
    have hc : applyNotifOp st .cancelAll = cancelAllNotifications st := rfl
    rw [hc]
    unfold cancelAllNotifications
    split
    · exact h
    · simp

theorem notifOps_keys_nodup (ops : List NotifOp) :
    ∀ st : NotifState, (st.pending.map (fun e => e.1)).Nodup →
      ((ops.foldl applyNotifOp st).pending.map (fun e => e.1)).Nodup := by
  induction ops with
  | nil => exact fun st h => h
  | cons op rest ih =>
    intro st h
    rw [List.foldl_cons]
    exact ih _ (applyNotifOp_keys_nodup h)

theorem loadTrips_frame (st : SyncState) (gw : GwResult (List Trip)) :
    (loadTrips st gw).1.online = st.online ∧
    (loadTrips st gw).1.notif = st.notif ∧
    (loadTrips st gw).1.backend = st.backend := by
  unfold loadTrips
  repeat' split
  all_goals exact ⟨rfl, rfl, rfl⟩

theorem loadTripPlaces_frame (st : SyncState) (tid : Nat)
    (gw : GwResult (List TripPlaceWithDetails)) :
    (loadTripPlaces st tid gw).1.online = st.online ∧
    (loadTripPlaces st tid gw).1.notif = st.notif ∧
    (loadTripPlaces st tid gw).1.backend = st.backend := by
  unfold loadTripPlaces
  dsimp only
  repeat' split
  all_goals exact ⟨rfl, rfl, rfl⟩

theorem refreshTripPlacesM_frame (st : SyncState) (tid : Nat) :
    (refreshTripPlacesM st tid).1.online = st.online ∧
    (refreshTripPlacesM st tid).1.notif = st.notif ∧
    (refreshTripPlacesM st tid).1.backend = st.backend := by
  unfold refreshTripPlacesM
  cases readTripPlacesB st.backend tid with
  | none => exact loadTripPlaces_frame st tid .err
  | some data => exact loadTripPlaces_frame st tid (.ok data)

theorem refreshTripsM_frame (st : SyncState) :
    (refreshTripsM st).1.online = st.online ∧
    (refreshTripsM st).1.notif = st.notif ∧
    (refreshTripsM st).1.backend = st.backend :=
  loadTrips_frame st (.ok (readTripsB st.backend))

theorem filter_key_and_ne {β : Type} (l : List (Nat × β)) (k : Nat) :
    (l.filter (fun e => e.1 != k)).filter (fun e => e.1 == k) = [] := by
  rw [List.filter_filter]
  rw [List.filter_congr (q := fun _ => false)]
  · exact List.filter_false _
  · intro e _
    by_cases he : e.1 = k <;> simp [he]

theorem platformSchedule_filter_self (l : List (Nat × DateTime)) (id : Nat)
    (nd : DateTime) :
    (platformSchedule l id nd).filter (fun e => e.1 == id) = [(id, nd)] := by
  unfold platformSchedule
  rw [List.filter_append, filter_key_and_ne]
  simp

theorem schedule_filter_self {now : DateTime} {st : NotifState}
    {tp : TripPlaceWithDetails} {d : DateTime}
    (halert : tp.is_alert_active = true) (harr : tp.arrival_date = some d)
    (hperm : st.hasPermission = true)
    (hnle : ¬ dtLe (calculateNotificationDate now d) now) :
    (scheduleNotificationForSpot now st tp).pending.filter
        (fun e => e.1 == tp.id)
      = [(tp.id, calculateNotificationDate now d)] := by
  unfold scheduleNotificationForSpot
  rw [harr]
  simp only [halert, hperm, Bool.not_true, Bool.false_eq_true, if_false, hnle,
    if_true]
  exact platformSchedule_filter_self _ _ _

theorem getTripPlaceWithDetails_append (b : Backend) (row : TripPlaceRow)
    (n i : Nat) (hid : row.id = i)
    (hfresh : ∀ r ∈ b.tripPlaces, r.id < i) :
    getTripPlaceWithDetails
        { b with tripPlaces := b.tripPlaces ++ [row], nextId := n } i
      = joinRow b.places row := by
  unfold getTripPlaceWithDetails
  have h1 : b.tripPlaces.find? (fun r => r.id == i) = none := by
    rw [List.find?_eq_none]
    intro r hr
    simp only [beq_iff_eq]
    exact Nat.ne_of_lt (hfresh r hr)
  dsimp only
  rw [List.find?_append, h1]
  simp [List.find?_cons, hid]

theorem createTripPlace_state_notif (st : SyncState) (now : DateTime)
    (ins : TripPlaceInsert) (honline : st.online = true) :
    (createTripPlace st now ins).state.online = st.online ∧
    (createTripPlace st now ins).state.notif
      = (match getTripPlaceWithDetails
            { st.backend with
              tripPlaces := (st.backend.tripPlaces ++
                [{ id := st.backend.nextId, trip_id := ins.trip_id,
                   place_id := ins.place_id, visit_order := ins.visit_order,
                   arrival_date := ins.arrival_date,
                   departure_date := ins.departure_date,
                   is_alert_active := ins.is_alert_active.getD false,
                   note := ins.note }]),
              nextId := st.backend.nextId + 1 } st.backend.nextId with
         | some details => scheduleNotificationForSpot now st.notif details
         | none => st.notif) := by
  have hck : checkOnlineOrError st = Except.ok () := by
    simp [checkOnlineOrError, honline]
  unfold createTripPlace
  rw [hck]
  dsimp only
  constructor
  · rw [(refreshTripsM_frame _).1, (refreshTripPlacesM_frame _ _).1]
  · rw [(refreshTripsM_frame _).2.1, (refreshTripPlacesM_frame _ _).2.1]

theorem deleteTripPlace_state_notif (st : SyncState) (id tid : Nat)
    (honline : st.online = true) :
    (deleteTripPlace st id tid).state.online = st.online ∧
    (deleteTripPlace st id tid).state.notif
      = cancelNotification st.notif id := by
  have hck : checkOnlineOrError st = Except.ok () := by
    simp [checkOnlineOrError, honline]
  unfold deleteTripPlace
  rw [hck]
  dsimp only
  constructor
  · rw [(refreshTripsM_frame _).1, (refreshTripPlacesM_frame _ _).1]
  · rw [(refreshTripsM_frame _).2.1, (refreshTripPlacesM_frame _ _).2.1]

/-- C5: every reachable state of the notification subsystem has at most one
pending reminder per TripPlace id; creating a TripPlace with the alert flag
set and a (midnight-normalized) arrival date more than one day in the
future yields exactly one pending reminder keyed by the new row's id, and
deleting that TripPlace removes it. -/
theorem at_most_one_pending_per_trip_place :
    (∀ (perm : Bool) (ops : List NotifOp),
      ((ops.foldl applyNotifOp (initialNotifState perm)).pending.map
        (fun e => e.1)).Nodup) ∧
    (∀ (st : SyncState) (now : DateTime) (ins : TripPlaceInsert) (d : DateTime),
      st.online = true →
      ins.is_alert_active = some true →
      ins.arrival_date = some d →
      d.msOfDay = 0 →
      dtLt (addDays now 1) d →
      st.notif.hasPermission = true →
      (∀ r ∈ st.backend.tripPlaces, r.id < st.backend.nextId) →
      (∃ pl, st.backend.places.find? (fun p => p.id == ins.place_id) = some pl) →
      ((createTripPlace st now ins).state.notif.pending.filter
          (fun e => e.1 == st.backend.nextId)
        = [(st.backend.nextId, calculateNotificationDate now d)] ∧
       (deleteTripPlace (createTripPlace st now ins).state st.backend.nextId
          ins.trip_id).state.notif.pending.filter
            (fun e => e.1 == st.backend.nextId)
        = [])) := by
  constructor
  · intro perm ops
    exact notifOps_keys_nodup ops (initialNotifState perm)
      (by simp [initialNotifState])
  · intro st now ins d honline halert harr harr0 hfut hperm hfresh hplace
    obtain ⟨pl, hpl⟩ := hplace
    obtain ⟨hon1, hnotif1⟩ := createTripPlace_state_notif st now ins honline
    rw [getTripPlaceWithDetails_append _ _ _ _ rfl hfresh] at hnotif1
    unfold joinRow at hnotif1
    rw [hpl] at hnotif1
    simp only [Option.map_some'] at hnotif1
    have hnle : ¬ dtLe (calculateNotificationDate now d) now := by
      have hcalc : calculateNotificationDate now d
          = { day := d.day - 1, msOfDay := NOTIFICATION_HOUR * msPerHour } := by
        simp [calculateNotificationDate, DEBUG_MODE]
      rw [hcalc]
      unfold dtLt addDays DateTime.toMs at hfut
      unfold dtLe DateTime.toMs
      simp only [msPerHour, NOTIFICATION_HOUR] at *
      rw [harr0] at hfut
      omega
    constructor
    · rw [hnotif1]
      have halert2 : ins.is_alert_active.getD false = true := by
        rw [halert]
        rfl
      exact @schedule_filter_self now st.notif
        { id := st.backend.nextId, trip_id := ins.trip_id,
          place_id := ins.place_id, visit_order := ins.visit_order,
          arrival_date := ins.arrival_date,
          departure_date := ins.departure_date,
          is_alert_active := ins.is_alert_active.getD false,
          note := ins.note, place_name := pl.name,
          place_latitude := pl.latitude, place_longitude := pl.longitude }
        d halert2 harr hperm hnle
    · obtain ⟨hon2, hnotif2⟩ := deleteTripPlace_state_notif
        (createTripPlace st now ins).state st.backend.nextId ins.trip_id
        (by rw [hon1]; exact honline)
      rw [hnotif2]
      unfold cancelNotification
      dsimp only
      exact filter_key_and_ne _ _

/-- C5 witness: the invariant after a concrete operation sequence, and the
create-then-delete scenario on the concrete fixture state. -/
theorem at_most_one_pending_per_trip_place_witness :
    ((([NotifOp.schedule { day := 18, msOfDay := 0 } fixtureTPD,
        NotifOp.schedule { day := 18, msOfDay := 0 } fixtureTPD,
        NotifOp.update { day := 18, msOfDay := 0 } fixtureTPD]).foldl
          applyNotifOp (initialNotifState true)).pending.map
        (fun e => e.1)).Nodup ∧
    ((createTripPlace fixtureOnlineState { day := 18, msOfDay := 0 }
        { trip_id := 10, place_id := 100, visit_order := 3,
          arrival_date := some { day := 20, msOfDay := 0 },
          departure_date := none, is_alert_active := some true,
          note := none }).state.notif.pending.filter (fun e => e.1 == 4)
      = [(4, calculateNotificationDate { day := 18, msOfDay := 0 }
              { day := 20, msOfDay := 0 })] ∧
     (deleteTripPlace (createTripPlace fixtureOnlineState
          { day := 18, msOfDay := 0 }
          { trip_id := 10, place_id := 100, visit_order := 3,
            arrival_date := some { day := 20, msOfDay := 0 },
            departure_date := none, is_alert_active := some true,
            note := none }).state 4 10).state.notif.pending.filter
        (fun e => e.1 == 4)
      = []) :=
  ⟨at_most_one_pending_per_trip_place.1 true
      [NotifOp.schedule { day := 18, msOfDay := 0 } fixtureTPD,
       NotifOp.schedule { day := 18, msOfDay := 0 } fixtureTPD,
       NotifOp.update { day := 18, msOfDay := 0 } fixtureTPD],
   at_most_one_pending_per_trip_place.2 fixtureOnlineState
      { day := 18, msOfDay := 0 }
      { trip_id := 10, place_id := 100, visit_order := 3,
        arrival_date := some { day := 20, msOfDay := 0 },
        departure_date := none, is_alert_active := some true, note := none }
      { day := 20, msOfDay := 0 } rfl rfl rfl rfl (by decide) rfl
      (by decide) ⟨fixturePlace, rfl⟩⟩

/-! ## Claim C2 -/

theorem foldl_applyVoUpdate_eq_map (t : Nat) (us : List (Nat × Nat)) :
    ∀ rows : List TripPlaceRow,
      us.foldl (applyVoUpdate t) rows
        = rows.map (fun r => us.foldl (applyVoRow t) r) := by
  induction us with
  | nil => intro rows; simp
  | cons u us ih =>
    intro rows
    rw [List.foldl_cons, ih]
    unfold applyVoUpdate
    rw [List.map_map]
    rfl

theorem foldl_applyVoRow_wrong_trip (t : Nat) (r : TripPlaceRow)
    (hr : r.trip_id ≠ t) :
    ∀ us : List (Nat × Nat), us.foldl (applyVoRow t) r = r := by
  intro us
  induction us with
  | nil => rfl
  | cons u us ih =>
    rw [List.foldl_cons]
    have hstep : applyVoRow t r u = r := by
      unfold applyVoRow
      simp [hr]
    rw [hstep, ih]

theorem foldl_applyVoRow_enumFrom (t : Nat) :
    ∀ (ids : List Nat) (n : Nat) (r : TripPlaceRow), ids.Nodup →
      r.trip_id = t →
      ((List.enumFrom n ids).map (fun p => (p.2, p.1))).foldl (applyVoRow t) r
        = if r.id ∈ ids then { r with visit_order := n + ids.indexOf r.id }
          else r := by
  intro ids
  induction ids with
  | nil => intro n r _ _; simp
  | cons i rest ih =>
    intro n r hnd hr
    rw [List.nodup_cons] at hnd
    simp only [List.enumFrom, List.map_cons, List.foldl_cons]
    by_cases hid : r.id = i
    · have hstep : applyVoRow t r (i, n) = { r with visit_order := n } := by
        unfold applyVoRow
        simp [hid, hr]
      rw [hstep]
      rw [ih (n + 1) { r with visit_order := n } hnd.2 hr]
      have hnotin : ({ r with visit_order := n } : TripPlaceRow).id ∉ rest := by
        simpa [hid] using hnd.1
      rw [if_neg hnotin, if_pos (by simp [hid])]
      have hidx : List.indexOf r.id (i :: rest) = 0 := by
        rw [hid]
        exact List.indexOf_cons_self i rest
      rw [hidx]
      simp

    · have hstep : applyVoRow t r (i, n) = r := by
        unfold applyVoRow
        simp [hid]
      rw [hstep, ih (n + 1) r hnd.2 hr]
      by_cases hmem : r.id ∈ rest
      · rw [if_pos hmem, if_pos (List.mem_cons_of_mem _ hmem)]
        have hii : i ≠ r.id := fun h => hid h.symm
        rw [List.indexOf_cons_ne _ hii]
        have hv : (n + 1) + List.indexOf r.id rest
            = n + (List.indexOf r.id rest).succ := by omega
        rw [hv]
      · rw [if_neg hmem, if_neg (by simp [hid, hmem])]

theorem foldl_applyVoRow_char (t : Nat) (ids : List Nat) (hnd : ids.Nodup)
    (r : TripPlaceRow) :
    (ids.enum.map (fun p => (p.2, p.1))).foldl (applyVoRow t) r
      = voAssign t ids r := by
  by_cases hr : r.trip_id = t
  · have henum : ids.enum = List.enumFrom 0 ids := rfl
    rw [henum, foldl_applyVoRow_enumFrom t ids 0 r hnd hr]
    unfold voAssign
    by_cases hmem : r.id ∈ ids
    · rw [if_pos hmem, if_pos ⟨hr, hmem⟩]
      simp
    · rw [if_neg hmem, if_neg (fun hc => hmem hc.2)]
  · rw [foldl_applyVoRow_wrong_trip t r hr]
    unfold voAssign
    rw [if_neg (fun hc => hr hc.1)]

theorem reorder_rows_char (t : Nat) (ids : List Nat) (hnd : ids.Nodup)
    (rows : List TripPlaceRow) :
    (ids.enum.map (fun p => (p.2, p.1))).foldl (applyVoUpdate t) rows
      = rows.map (voAssign t ids) := by
  rw [foldl_applyVoUpdate_eq_map]
  exact List.map_congr_left (fun r _ => foldl_applyVoRow_char t ids hnd r)

theorem filter_map_voAssign (t : Nat) (ids : List Nat)
    (rows : List TripPlaceRow) :
    (rows.map (voAssign t ids)).filter (fun r => r.trip_id == t)
      = (rows.filter (fun r => r.trip_id == t)).map (voAssign t ids) := by
  rw [List.filter_map]
  refine congrArg _ (List.filter_congr ?_)
  intro r _
  show ((voAssign t ids r).trip_id == t) = (r.trip_id == t)
  unfold voAssign
  split <;> rfl

theorem enumFrom_swap_indexOf :
    ∀ (ids : List Nat) (n : Nat), ids.Nodup →
      (List.enumFrom n ids).map (fun p => (p.2, p.1))
        = ids.map (fun i => (i, n + ids.indexOf i)) := by
  intro ids
  induction ids with
  | nil => intro n _; rfl
  | cons i rest ih =>
    intro n hnd
    rw [List.nodup_cons] at hnd
    simp only [List.enumFrom, List.map_cons]
    rw [ih (n + 1) hnd.2]
    congr 1
    · rw [List.indexOf_cons_self]
      simp
    · refine List.map_congr_left ?_
      intro j hj
      have hij : i ≠ j := fun h => hnd.1 (h ▸ hj)
      rw [List.indexOf_cons_ne _ hij]
      have hv : (n + 1) + List.indexOf j rest
          = n + (List.indexOf j rest).succ := by omega
      rw [hv]

instance : IsAntisymm (Nat × Nat) (fun a b => a.2 < b.2) :=
  ⟨fun a b h h2 => ((Nat.lt_asymm h) h2).elim⟩

theorem mergeSort_pairs_eq (F : List TripPlaceRow) (ids : List Nat) (t : Nat)
    (hperm : (F.map (fun r => r.id)).Perm ids) (hnd : ids.Nodup)
    (htrip : ∀ r ∈ F, r.trip_id = t) :
    ((F.map (voAssign t ids)).mergeSort voLe).map
        (fun r => (r.id, r.visit_order))
      = ids.enum.map (fun p => (p.2, p.1)) := by
  have hF2pairs : (F.map (voAssign t ids)).map (fun r => (r.id, r.visit_order))
      = (F.map (fun r => r.id)).map (fun i => (i, ids.indexOf i)) := by
    rw [List.map_map, List.map_map]
    refine List.map_congr_left ?_
    intro r hr
    have hmem : r.id ∈ ids := hperm.mem_iff.mp (List.mem_map.mpr ⟨r, hr, rfl⟩)
    show ((voAssign t ids r).id, (voAssign t ids r).visit_order)
        = (r.id, ids.indexOf r.id)
    unfold voAssign
    rw [if_pos ⟨htrip r hr, hmem⟩]
  have hT : ids.enum.map (fun p => (p.2, p.1))
      = ids.map (fun i => (i, ids.indexOf i)) := by
    have h0 : ids.enum = List.enumFrom 0 ids := rfl
    rw [h0, enumFrom_swap_indexOf ids 0 hnd]
    refine List.map_congr_left ?_
    intro j _
    rw [Nat.zero_add]
  have hPT : (((F.map (voAssign t ids)).mergeSort voLe).map
      (fun r => (r.id, r.visit_order))).Perm
      (ids.enum.map (fun p => (p.2, p.1))) := by
    have h1 := (List.mergeSort_perm (F.map (voAssign t ids)) voLe).map
      (fun r => (r.id, r.visit_order))
    rw [hF2pairs] at h1
    have h2 := hperm.map (fun i => (i, ids.indexOf i))
    rw [hT]
    exact h1.trans h2
  have htrans : ∀ a b c : TripPlaceRow, voLe a b = true → voLe b c = true →
      voLe a c = true := by
    intro a b c hab hbc
    simp only [voLe, decide_eq_true_eq] at *
    omega
  have htotal : ∀ a b : TripPlaceRow, (voLe a b || voLe b a) = true := by
    intro a b
    simp only [voLe, Bool.or_eq_true, decide_eq_true_eq]
    omega
  have hsorted := List.sorted_mergeSort htrans htotal (F.map (voAssign t ids))
  have hsortedP : List.Pairwise (fun a b : Nat × Nat => a.2 ≤ b.2)
      (((F.map (voAssign t ids)).mergeSort voLe).map
        (fun r => (r.id, r.visit_order))) := by
    rw [List.pairwise_map]
    refine hsorted.imp ?_
    intro a b hab
    simpa [voLe] using hab
  have hsndT : (ids.enum.map (fun p => (p.2, p.1))).map (fun q => q.2)
      = List.range' 0 ids.length := by
    rw [List.map_map]
    have h0 : ids.enum = List.enumFrom 0 ids := rfl
    rw [h0]
    have : ((fun q : Nat × Nat => q.2) ∘ (fun p : Nat × Nat => (p.2, p.1)))
        = Prod.fst := rfl
    rw [this]
    exact List.enumFrom_map_fst 0 ids
  have hsndTnodup : ((ids.enum.map (fun p => (p.2, p.1))).map
      (fun q => q.2)).Nodup := by
    rw [hsndT]
    exact List.nodup_range' 0 ids.length
  have hsndPnodup : ((((F.map (voAssign t ids)).mergeSort voLe).map
      (fun r => (r.id, r.visit_order))).map (fun q => q.2)).Nodup :=
    ((hPT.map (fun q => q.2)).nodup_iff).mpr hsndTnodup
  have hneP : List.Pairwise (fun a b : Nat × Nat => a.2 ≠ b.2)
      (((F.map (voAssign t ids)).mergeSort voLe).map
        (fun r => (r.id, r.visit_order))) := by
    have := hsndPnodup
    rw [List.Nodup, List.pairwise_map] at this
    exact this
  have hltP : List.Pairwise (fun a b : Nat × Nat => a.2 < b.2)
      (((F.map (voAssign t ids)).mergeSort voLe).map
        (fun r => (r.id, r.visit_order))) := by
    refine (hsortedP.and hneP).imp ?_
    intro a b hab
    exact Nat.lt_of_le_of_ne hab.1 hab.2
  have hltT : List.Pairwise (fun a b : Nat × Nat => a.2 < b.2)
      (ids.enum.map (fun p => (p.2, p.1))) := by
    have hr : List.Pairwise (fun a b : Nat => a < b)
        ((ids.enum.map (fun p => (p.2, p.1))).map (fun q => q.2)) := by
      rw [hsndT]
      exact List.pairwise_lt_range' 0 ids.length
    rw [List.pairwise_map] at hr
    exact hr
  exact List.eq_of_perm_of_sorted hPT hltP hltT

theorem joinRows_pairs (places : List PlaceRec) :
    ∀ rows : List TripPlaceRow,
      (∀ r ∈ rows, (places.find? (fun p => p.id == r.place_id)).isSome) →
      ∃ dl, joinRows places rows = some dl ∧
        dl.map (fun d => (d.id, d.visit_order))
          = rows.map (fun r => (r.id, r.visit_order)) := by
  intro rows
  induction rows with
  | nil => intro _; exact ⟨[], rfl, rfl⟩
  | cons r rest ih =>
    intro h
    obtain ⟨pl, hpl⟩ := Option.isSome_iff_exists.mp
      (h r (List.mem_cons_self _ _))
    obtain ⟨dl, hdl, hpairs⟩ := ih (fun x hx => h x (List.mem_cons_of_mem _ hx))
    obtain ⟨w, hw, hwid, hwvo⟩ :
        ∃ w, joinRow places r = some w ∧ w.id = r.id ∧
          w.visit_order = r.visit_order := by
      unfold joinRow
      rw [hpl]
      exact ⟨_, rfl, rfl, rfl⟩
    refine ⟨w :: dl, ?_, ?_⟩
    · unfold joinRows
      rw [hw, hdl]
    · rw [List.map_cons, hpairs, hwid, hwvo, List.map_cons]

theorem lookupAssoc_subjNext (m : List (Nat × List TripPlaceWithDetails))
    (t : Nat) (v : List TripPlaceWithDetails)
    (h : m.any (fun e => e.1 == t) = true) :
    lookupAssoc (subjNext m t v) t = some v := by
  induction m with
  | nil => cases h
  | cons e rest ih =>
    unfold subjNext at *
    unfold lookupAssoc at *
    by_cases he : e.1 = t
    · simp [List.find?_cons, he]
    · rw [List.any_cons] at h
      have h2 : rest.any (fun e => e.1 == t) = true := by
        rcases Bool.or_eq_true_iff.mp h with h1 | h1
        · exact absurd (by simpa using h1) he
        · exact h1
      have hne : (e.1 == t) = false := by simpa using he
      simp only [List.map_cons, List.find?_cons, hne, Bool.false_eq_true,
        if_false]
      exact ih h2

/-- C2: for a permutation of the full set of a trip's TripPlace ids, the
reorder operation issues exactly one visit-order update per listed id,
sequentially in list order with the 0-based positional index, refreshes
once only after all updates, and reading the trip's places back afterwards
yields them in the submitted order with visit_order equal to position. -/
theorem reorder_assigns_positional_visit_order (st : SyncState) (t : Nat)
    (ids : List Nat)
    (honline : st.online = true)
    (hperm : ((rowsOfTrip st.backend t).map (fun r => r.id)).Perm ids)
    (hnd : ids.Nodup)
    (hsubj : st.placeSubjects.any (fun e => e.1 == t) = true)
    (hjoin : ∀ r ∈ rowsOfTrip st.backend t,
      (st.backend.places.find? (fun p => p.id == r.place_id)).isSome) :
    (reorderTripPlaces st t ids).result = .ok () ∧
    (reorderTripPlaces st t ids).events
      = (ids.enum.map (fun p => Ev.gw (GwCall.updateVisitOrder t p.2 p.1)))
        ++ [Ev.refreshPlaces t, Ev.gw (GwCall.selectTripPlaces t),
            Ev.refreshTrips, Ev.gw GwCall.selectTrips] ∧
    ∃ dl, lookupAssoc (reorderTripPlaces st t ids).state.placeSubjects t
        = some dl ∧
      dl.map (fun d => (d.id, d.visit_order))
        = ids.enum.map (fun p => (p.2, p.1)) := by
  have htrip : ∀ r ∈ rowsOfTrip st.backend t, r.trip_id = t := by
    intro r hr
    have := (List.mem_filter.mp hr).2
    simpa using this
  have hrows := reorder_rows_char t ids hnd st.backend.tripPlaces
  have hjoin2 : ∀ r ∈ ((rowsOfTrip st.backend t).map
      (voAssign t ids)).mergeSort voLe,
      (st.backend.places.find? (fun p => p.id == r.place_id)).isSome := by
    intro r hr
    have hr2 : r ∈ (rowsOfTrip st.backend t).map (voAssign t ids) :=
      (List.mergeSort_perm _ _).mem_iff.mp hr
    rcases List.mem_map.mp hr2 with ⟨r0, hr0, hrr⟩
    have hpid : r.place_id = r0.place_id := by
      rw [← hrr]
      unfold voAssign
      split <;> rfl
    rw [hpid]
    exact hjoin r0 hr0
  obtain ⟨dl, hdl, hpairs⟩ := joinRows_pairs st.backend.places
    (((rowsOfTrip st.backend t).map (voAssign t ids)).mergeSort voLe) hjoin2
  have hdlpairs : dl.map (fun d => (d.id, d.visit_order))
      = ids.enum.map (fun p => (p.2, p.1)) := by
    rw [hpairs]
    exact mergeSort_pairs_eq (rowsOfTrip st.backend t) ids t hperm hnd htrip
  have hreadB : readTripPlacesB
      { st.backend with tripPlaces := ((ids.enum.map
          (fun p => (p.2, p.1))).foldl (applyVoUpdate t)
            st.backend.tripPlaces) } t = some dl := by
    unfold readTripPlacesB rowsOfTrip
    dsimp only
    rw [hrows, filter_map_voAssign]
    exact hdl
  have honline2 : (!st.online) = false := by rw [honline]; rfl
  refine ⟨?_, ?_, ?_⟩
  · simp only [reorderTripPlaces, honline2, Bool.false_eq_true, if_false]
  · simp only [reorderTripPlaces, honline2, Bool.false_eq_true, if_false,
      refreshTripPlacesM, hreadB, loadTripPlaces, refreshTripsM, loadTrips,
      honline, Bool.not_true]
    simp [List.map_map]
  · refine ⟨dl, ?_, hdlpairs⟩
    simp only [reorderTripPlaces, honline2, Bool.false_eq_true, if_false,
      refreshTripPlacesM, hreadB, loadTripPlaces, refreshTripsM, loadTrips,
      honline, Bool.not_true]
    exact lookupAssoc_subjNext _ _ _ hsubj

/-- C2 witness: reordering trip 10's three places as [3, 1, 2] issues the
three positional updates in order, refreshes once afterwards, and the
subject reads back ids 3, 1, 2 with visit orders 0, 1, 2. -/
theorem reorder_assigns_positional_visit_order_witness :
    (reorderTripPlaces fixtureOnlineState 10 [3, 1, 2]).result = .ok () ∧
    (reorderTripPlaces fixtureOnlineState 10 [3, 1, 2]).events
      = (([3, 1, 2] : List Nat).enum.map
          (fun p => Ev.gw (GwCall.updateVisitOrder 10 p.2 p.1)))
        ++ [Ev.refreshPlaces 10, Ev.gw (GwCall.selectTripPlaces 10),
            Ev.refreshTrips, Ev.gw GwCall.selectTrips] ∧
    ∃ dl, lookupAssoc (reorderTripPlaces fixtureOnlineState 10
        [3, 1, 2]).state.placeSubjects 10 = some dl ∧
      dl.map (fun d => (d.id, d.visit_order))
        = ([3, 1, 2] : List Nat).enum.map (fun p => (p.2, p.1)) :=
  reorder_assigns_positional_visit_order fixtureOnlineState 10 [3, 1, 2]
    rfl (by decide) (by decide) (by decide) (by decide)
